import Mathlib

/-!
Verification development for the chunk streaming / generation pipeline of the
`three-vibes` repository (a procedurally generated, chunk-streamed 3D terrain).

Shallow embedding conventions used throughout:

* JavaScript numbers are modelled as exact rationals (`ℚ`); integer chunk
  coordinates as `ℤ`.  Opaque floating-point library primitives — the noise
  functions (`Perlin.get2` of `ts-noise` on the main thread, the worker's own
  `PerlinNoise.noise2D`) and `Math.pow` — are modelled as *oracle parameters*
  of type `ℚ → ℚ → ℚ`, since their bit-level values are environment inputs of
  the source, not computable from it.
* `Math.sqrt d2 > m` (with `d2 = dx*dx + dz*dz ≥ 0`) is embedded as the exact
  equivalent comparison `m < 0 ∨ m * m < d2`; the lemma `distGT_iff_sqrt`
  proves this equivalence against `Real.sqrt`.
* JavaScript `Map`/`Set` objects are modelled as insertion-ordered association
  lists with the helpers `lookupKV`/`mapSetKV`/`mapDelKV`/`setAddK`/`setDelK`
  below, which reproduce `Map.get/set/delete` and `Set.add/delete`.
* `Date.now()` is passed in explicitly as a `now : ℚ` argument wherever the
  source reads the clock.
* The source's `priority` field is `Math.max(0, 1000 - 10 * Math.sqrt(d2))`,
  an irrational-valued (hence not `ℚ`-representable) antitone function of the
  squared distance `d2`.  The model stores `d2` itself (field `priorityD2`);
  the real-valued priority `max 0 (1000 - 10 * Real.sqrt d2)` it determines is
  used in theorem statements, and its antitonicity in the distance is proved
  in the C4 theorem.
-/

/-- Membership-style lookup in an association list, reproducing JS
`Map.prototype.get` (first binding wins; the model keeps keys unique). -/
def lookupKV {K V : Type} [DecidableEq K] : List (K × V) → K → Option V
  | [], _ => none
  | (k', v) :: t, k => if k' = k then some v else lookupKV t k

/-- JS `Map.prototype.set`: replace the binding in place if the key is
present, otherwise append the new binding. -/
def mapSetKV {K V : Type} [DecidableEq K] (l : List (K × V)) (k : K) (v : V) :
    List (K × V) :=
  if (lookupKV l k).isSome then
    l.map (fun p => if p.1 = k then (k, v) else p)
  else l ++ [(k, v)]

/-- JS `Map.prototype.delete`. -/
def mapDelKV {K V : Type} [DecidableEq K] (l : List (K × V)) (k : K) :
    List (K × V) :=
  l.filter (fun p => p.1 ≠ k)

/-- JS `Set.prototype.add` (no-op when the element is present). -/
def setAddK {K : Type} [DecidableEq K] (l : List K) (k : K) : List K :=
  if k ∈ l then l else l ++ [k]

/-- JS `Set.prototype.delete`. -/
def setDelK {K : Type} [DecidableEq K] (l : List K) (k : K) : List K :=
  l.filter (fun k' => k' ≠ k)

/-- Exact embedding of the float comparison `Math.sqrt (dx*dx+dz*dz) > m`
used by `ChunkStateManager.cleanupOutOfRangeChunks` and
`ChunkWorkerPool.cancelOutOfRangeTasks`. -/
def distGT (dx dz : ℤ) (m : ℚ) : Bool :=
  decide (m < 0) || decide (m * m < ((dx * dx + dz * dz : ℤ) : ℚ))

/-- The squared Euclidean distance `dx*dx + dz*dz` as a rational; this is the
quantity under the `Math.sqrt` in `calculatePriority`. -/
def calcD2 (cx cz x z : ℤ) : ℚ :=
  (((x - cx) * (x - cx) + (z - cz) * (z - cz) : ℤ) : ℚ)

/-- `distGT` is exactly the comparison the source makes with `Math.sqrt`. -/
theorem distGT_iff_sqrt (dx dz : ℤ) (m : ℚ) :
    distGT dx dz m = true ↔ (m : ℝ) < Real.sqrt ((dx * dx + dz * dz : ℤ) : ℝ) := by
  unfold distGT
  have hd2 : (0 : ℝ) ≤ ((dx * dx + dz * dz : ℤ) : ℝ) := by
    push_cast
    nlinarith [mul_self_nonneg ((dx : ℝ)), mul_self_nonneg ((dz : ℝ))]
  constructor
  · intro h
    rcases Bool.or_eq_true_iff.mp h with h' | h'
    · have hm : m < 0 := of_decide_eq_true h'
      calc (m : ℝ) < 0 := by exact_mod_cast hm
        _ ≤ Real.sqrt _ := Real.sqrt_nonneg _
    · have hmm : m * m < ((dx * dx + dz * dz : ℤ) : ℚ) := of_decide_eq_true h'
      have hmm' : (m : ℝ) * (m : ℝ) < ((dx * dx + dz * dz : ℤ) : ℝ) := by
        exact_mod_cast hmm
      rcases lt_or_le m 0 with hneg | hpos
      · calc (m : ℝ) < 0 := by exact_mod_cast hneg
          _ ≤ Real.sqrt _ := Real.sqrt_nonneg _
      · have hpos' : (0 : ℝ) ≤ (m : ℝ) := by exact_mod_cast hpos
        have := Real.lt_sqrt hpos' (y := ((dx * dx + dz * dz : ℤ) : ℝ))
        rw [this]
        nlinarith
  · intro h
    rcases lt_or_le m 0 with hneg | hpos
    · exact Bool.or_eq_true_iff.mpr (Or.inl (decide_eq_true hneg))
    · refine Bool.or_eq_true_iff.mpr (Or.inr (decide_eq_true ?_))
      have hpos' : (0 : ℝ) ≤ (m : ℝ) := by exact_mod_cast hpos
      have h2 : (m : ℝ) * (m : ℝ) < ((dx * dx + dz * dz : ℤ) : ℝ) := by
        have := (Real.lt_sqrt hpos' (y := ((dx * dx + dz * dz : ℤ) : ℝ))).mp h
        nlinarith
      exact_mod_cast h2

/-! ## Data model: `ChunkWorker.ts` message shapes -/

/-- `heightGeneratorConfig` of a `ChunkGenerationRequest`
(`ChunkWorker.ts`). -/
structure HGConfig where
  seed : ℤ
  scale : ℚ
  heightScale : ℚ
  octaves : ℕ
  persistence : ℚ
  lacunarity : ℚ
  deriving DecidableEq, Repr

/-- `ChunkGenerationRequest` (`ChunkWorker.ts`).  `chunkResolution` is a
positive integer at every call site (64); it is modelled as `ℕ`. -/
structure GenRequest where
  id : String
  chunkX : ℤ
  chunkZ : ℤ
  chunkSize : ℚ
  chunkResolution : ℕ
  heightGeneratorConfig : HGConfig
  deriving DecidableEq, Repr

/-- `ChunkGenerationResult` (`ChunkWorker.ts`): typed-array buffers are
modelled as lists (`vertices`/`colors` as flat lists of floats, three entries
per vertex; `indices`/`biomes` as lists of naturals). -/
structure GenResult where
  id : String
  chunkX : ℤ
  chunkZ : ℤ
  vertices : List ℚ
  indices : List ℕ
  colors : List ℚ
  biomes : List ℕ
  success : Bool
  error : Option String
  deriving DecidableEq, Repr

/-! ## Data model: `ChunkStateManager.ts` -/

/-- `ChunkState` enum. -/
inductive ChunkState where
  | pending
  | generating
  | ready
  | rendered
  | removing
  deriving DecidableEq, Repr

/-- The `data?: any` argument of `setChunkState`.  At its two live call-site
shapes it is either a generation-id string (for `GENERATING`) or a
`ChunkGenerationResult` object (for `READY`). -/
inductive SCData where
  | str (s : String)
  | res (r : GenResult)
  deriving DecidableEq

/-- JS truthiness of an `SCData` value: a string is truthy iff nonempty; an
object is always truthy. -/
def SCData.truthy : SCData → Bool
  | .str s => s ≠ ""
  | .res _ => true

/-- `ChunkInfo` (`ChunkStateManager.ts`).  The string key `"x,z"` is modelled
as the integer pair itself (the encoding is injective on integer pairs);
`geometryData` stores the raw `data` value assigned by `setChunkState`;
`priorityD2` is the squared distance representing the priority (see the file
header). -/
structure ChunkInfoM where
  key : ℤ × ℤ
  x : ℤ
  z : ℤ
  state : ChunkState
  generationId : Option String
  geometryData : Option SCData
  priorityD2 : ℚ
  lastAccessed : ℚ
  deriving DecidableEq

/-- The private state of a `ChunkStateManager` instance. -/
structure CSM where
  chunks : List ((ℤ × ℤ) × ChunkInfoM)
  pendingChunks : List (ℤ × ℤ)
  generatingChunks : List ((ℤ × ℤ) × String)
  readyChunks : List (ℤ × ℤ)
  renderedChunks : List (ℤ × ℤ)
  centerX : ℤ
  centerZ : ℤ
  renderRadius : ℚ
  deriving DecidableEq

/-- Freshly constructed `ChunkStateManager` (fields' initializers;
`renderRadius = 6`). -/
def csmInit : CSM :=
  { chunks := []
    pendingChunks := []
    generatingChunks := []
    readyChunks := []
    renderedChunks := []
    centerX := 0
    centerZ := 0
    renderRadius := 6 }

/-- `getChunkKey(x, z)`: the source's `"x,z"` string, as the integer pair. -/
def getChunkKey (x z : ℤ) : ℤ × ℤ := (x, z)

/-- `updateChunkStateSet(key, oldState, newState)`: remove `key` from the
collection indexed by `oldState`, then add it to the one indexed by
`newState`.  `GENERATING` has no add-branch (the generation id is added
separately by `setChunkState`), and `REMOVING` is indexed by no collection. -/
def updateChunkStateSet (s : CSM) (key : ℤ × ℤ)
    (oldState newState : Option ChunkState) : CSM :=
  let s1 :=
    match oldState with
    | some .pending => { s with pendingChunks := setDelK s.pendingChunks key }
    | some .generating =>
        { s with generatingChunks := mapDelKV s.generatingChunks key }
    | some .ready => { s with readyChunks := setDelK s.readyChunks key }
    | some .rendered =>
        { s with renderedChunks := setDelK s.renderedChunks key }
    | some .removing => s
    | none => s
  match newState with
  | some .pending => { s1 with pendingChunks := setAddK s1.pendingChunks key }
  | some .generating => s1
  | some .ready => { s1 with readyChunks := setAddK s1.readyChunks key }
  | some .rendered =>
      { s1 with renderedChunks := setAddK s1.renderedChunks key }
  | some .removing => s1
  | none => s1

/-- `addChunk(x, z, state = PENDING)`: no-op when the key is tracked, else
insert a fresh `ChunkInfo` with computed priority and register it in the
collection of `state` (the source passes `PENDING` as the old state of the
fresh entry). -/
def csmAddChunk (s : CSM) (now : ℚ) (x z : ℤ) (state : ChunkState) : CSM :=
  let key := getChunkKey x z
  if (lookupKV s.chunks key).isSome then s
  else
    let info : ChunkInfoM :=
      { key := key
        x := x
        z := z
        state := state
        generationId := none
        geometryData := none
        priorityD2 := calcD2 s.centerX s.centerZ x z
        lastAccessed := now }
    updateChunkStateSet { s with chunks := mapSetKV s.chunks key info }
      key (some .pending) (some state)

/-- `setChunkState(x, z, newState, data?)`: warn-and-return when untracked;
otherwise mutate the entry's `state`/`lastAccessed`, store the generation id
(when `newState = GENERATING` and `data` is a string) or the payload (when
`newState = READY` and `data` is truthy), then update the state collections
with the previous state. -/
def csmSetChunkState (s : CSM) (now : ℚ) (x z : ℤ) (newState : ChunkState)
    (data : Option SCData) : CSM :=
  let key := getChunkKey x z
  match lookupKV s.chunks key with
  | none => s
  | some chunk =>
    let oldState := chunk.state
    let chunk1 := { chunk with state := newState, lastAccessed := now }
    let pr :=
      match newState, data with
      | .generating, some (.str g) =>
          ({ chunk1 with generationId := some g },
            mapSetKV s.generatingChunks key g)
      | .ready, some d =>
          (if d.truthy then { chunk1 with geometryData := some d } else chunk1,
            s.generatingChunks)
      | _, _ => (chunk1, s.generatingChunks)
    updateChunkStateSet
      { s with chunks := mapSetKV s.chunks key pr.1, generatingChunks := pr.2 }
      key (some oldState) (some newState)

/-- `getChunkState(x, z)` (`?.state || null`; state strings are truthy). -/
def csmGetChunkState (s : CSM) (x z : ℤ) : Option ChunkState :=
  (lookupKV s.chunks (getChunkKey x z)).map (fun c => c.state)

/-- `removeChunk(x, z)`: when tracked, deregister from the state collection
of the current state and delete the entry.  The same two statements are also
the loop body of both cleanup passes. -/
def csmRemoveChunk (s : CSM) (x z : ℤ) : CSM :=
  let key := getChunkKey x z
  match lookupKV s.chunks key with
  | none => s
  | some chunk =>
      let s1 := updateChunkStateSet s key (some chunk.state) none
      { s1 with chunks := mapDelKV s1.chunks key }

/-- Key-indexed form of `csmRemoveChunk`, used by the two cleanup loops
(whose bodies are literally the body of `removeChunk`). -/
def csmDeleteKey (s : CSM) (key : ℤ × ℤ) : CSM :=
  match lookupKV s.chunks key with
  | none => s
  | some chunk =>
      let s1 := updateChunkStateSet s key (some chunk.state) none
      { s1 with chunks := mapDelKV s1.chunks key }

/-- `cancelGeneratingChunk(x, z)` (private): when the chunk is tracked and
`GENERATING`, mark it `REMOVING` and drop its generation-id entry. -/
def csmCancelGeneratingChunk (s : CSM) (x z : ℤ) : CSM :=
  let key := getChunkKey x z
  match lookupKV s.chunks key with
  | none => s
  | some chunk =>
      if chunk.state = .generating then
        { s with
            chunks := mapSetKV s.chunks key { chunk with state := .removing }
            generatingChunks := mapDelKV s.generatingChunks key }
      else s

/-- `updatePriorities()` (private): recompute every entry's priority from the
current center. -/
def csmUpdatePriorities (s : CSM) : CSM :=
  { s with
      chunks := s.chunks.map (fun p =>
        (p.1, { p.2 with priorityD2 := calcD2 s.centerX s.centerZ p.2.x p.2.z })) }

/-- `cleanupOutOfRangeChunks()` (private): first pass over the live entries
collects every key at distance `> renderRadius + 1` and cancels the
generation of those currently `GENERATING`; second pass deletes the collected
keys with the `removeChunk` body.  (In the source both happen in one loop
followed by a deletion loop; cancelling one chunk touches no other entry's
distance test, so the passes commute with the collection.) -/
def csmCleanupOutOfRange (s : CSM) : CSM :=
  let maxD := s.renderRadius + 1
  let keys := (s.chunks.filter
    (fun p => distGT (p.2.x - s.centerX) (p.2.z - s.centerZ) maxD)).map
      (fun p => p.1)
  let s1 := keys.foldl (fun acc k => csmCancelGeneratingChunk acc k.1 k.2) s
  keys.foldl csmDeleteKey s1

/-- `updateCenter(x, z)`: store the center, recompute priorities, evict
out-of-range chunks. -/
def csmUpdateCenter (s : CSM) (x z : ℤ) : CSM :=
  csmCleanupOutOfRange
    (csmUpdatePriorities { s with centerX := x, centerZ := z })

/-- `cleanup()` (private, interval-driven): delete every entry untouched for
longer than 5 minutes (300000 ms) that is not `RENDERED`. -/
def csmCleanup (s : CSM) (now : ℚ) : CSM :=
  let keys := (s.chunks.filter
    (fun p => decide (300000 < now - p.2.lastAccessed)
      && decide (p.2.state ≠ .rendered))).map (fun p => p.1)
  keys.foldl csmDeleteKey s

/-- `setRenderRadius(radius)`: store and re-run the distance cleanup. -/
def csmSetRenderRadius (s : CSM) (radius : ℚ) : CSM :=
  csmCleanupOutOfRange { s with renderRadius := radius }

/-- One public `ChunkStateManager` operation, with arbitrary arguments. -/
inductive CSMStep : CSM → CSM → Prop where
  | add (s : CSM) (now : ℚ) (x z : ℤ) (st : ChunkState) :
      CSMStep s (csmAddChunk s now x z st)
  | set (s : CSM) (now : ℚ) (x z : ℤ) (st : ChunkState) (d : Option SCData) :
      CSMStep s (csmSetChunkState s now x z st d)
  | remove (s : CSM) (x z : ℤ) : CSMStep s (csmRemoveChunk s x z)
  | center (s : CSM) (x z : ℤ) : CSMStep s (csmUpdateCenter s x z)
  | cleanup (s : CSM) (now : ℚ) : CSMStep s (csmCleanup s now)
  | radius (s : CSM) (r : ℚ) : CSMStep s (csmSetRenderRadius s r)

/-- States reachable from a freshly constructed manager by any call
sequence. -/
inductive CSMReachable : CSM → Prop where
  | init : CSMReachable csmInit
  | step {s s' : CSM} : CSMReachable s → CSMStep s s' → CSMReachable s'

/-! ## Height generation (`HeightGenerator.generateHeight` and the worker's
per-vertex height computation in `ChunkWorker.ts` / `generateChunkGeometry`) -/

/-- The opaque floating-point primitives a height computation consumes:
`noise` is the 2D noise sample (`Perlin.get2` of `ts-noise` on the main
thread, seeded from `Math.random()` in the `HeightGenerator` constructor;
the worker's own LCG-shuffled cosine-gradient `PerlinNoise.noise2D`, seeded
from the request's `heightGeneratorConfig.seed`, in the worker), and `rpow`
is `Math.pow`. -/
structure NoiseOracles where
  noise : ℚ → ℚ → ℚ
  rpow : ℚ → ℚ → ℚ

/-- The 6-octave accumulation loop shared by both height functions
(`baseHeight += noise(x*f, z*f) * a; a *= 0.5; f *= 2`). -/
def octaveSum (noise : ℚ → ℚ → ℚ) (x z : ℚ) : ℕ → ℚ → ℚ → ℚ
  | 0, _, _ => 0
  | n + 1, amplitude, frequency =>
      noise (x * frequency) (z * frequency) * amplitude
        + octaveSum noise x z n (amplitude * 0.5) (frequency * 2)

/-- `HeightGenerator.generateHeight(x, z)` (`HeightGenerator.ts`), over the
instance's `this.perlin` noise (an oracle: the source constructs it as
`new Perlin(Math.random())`, so it is an environment input, not a function
of any seed) and the instance fields `scale`/`heightScale`. -/
def mainGenerateHeight (o : NoiseOracles) (scale heightScale : ℚ)
    (x z : ℚ) : ℚ :=
  let baseHeight := octaveSum o.noise x z 6 1 scale
  let mountainNoise := o.noise (x * 0.001) (z * 0.001)
  let hillNoise := o.noise (x * 0.008) (z * 0.008)
  let lakeNoise := o.noise (x * 0.002) (z * 0.002)
  let riverNoise := o.noise (x * 0.004) (z * 0.004)
  let finalHeight0 := baseHeight * (heightScale * 0.8)
  let finalHeight1 :=
    if lakeNoise < -0.75 ∨ (riverNoise < -0.8 ∧ lakeNoise < -0.5) then
      let lakeFactor :=
        if lakeNoise < -0.75 then o.rpow (|lakeNoise + 0.75| / 0.25) 1.5 else 0
      let riverFactor :=
        if riverNoise < -0.8 ∧ lakeNoise < -0.5 then
          o.rpow (|riverNoise + 0.8| / 0.2) 2
        else 0
      finalHeight0 - max lakeFactor riverFactor * 8
    else finalHeight0
  let finalHeight2 :=
    if mountainNoise > 0.2 then
      finalHeight1 + o.rpow ((mountainNoise - 0.2) / 0.8) 1.2 * 60
    else finalHeight1
  let finalHeight3 := finalHeight2 + hillNoise * 12
  let valleyNoise := o.noise (x * 0.005) (z * 0.005)
  let finalHeight4 :=
    if valleyNoise < -0.3 then finalHeight3 * 0.8 else finalHeight3
  finalHeight4 + 5

/-- The worker's per-vertex height computation inside
`generateChunkGeometry` (`ChunkWorker.ts`), over the worker's noise oracle
(derived in the source from `heightGeneratorConfig.seed`) and the request's
`scale`/`heightScale` configuration. -/
def workerHeight (o : NoiseOracles) (scale heightScale : ℚ)
    (worldX worldZ : ℚ) : ℚ :=
  let baseHeight := octaveSum o.noise worldX worldZ 6 1 scale
  let mountainNoise := o.noise (worldX * 0.001) (worldZ * 0.001)
  let hillNoise := o.noise (worldX * 0.008) (worldZ * 0.008)
  let lakeNoise := o.noise (worldX * 0.002) (worldZ * 0.002)
  let riverNoise := o.noise (worldX * 0.004) (worldZ * 0.004)
  let height0 := baseHeight * (heightScale * 0.8)
  let height1 :=
    if lakeNoise < -0.75 ∨ (riverNoise < -0.8 ∧ lakeNoise < -0.5) then
      let lakeFactor :=
        if lakeNoise < -0.75 then o.rpow (|lakeNoise + 0.75| / 0.25) 1.5 else 0
      let riverFactor :=
        if riverNoise < -0.8 ∧ lakeNoise < -0.5 then
          o.rpow (|riverNoise + 0.8| / 0.2) 2
        else 0
      height0 - max lakeFactor riverFactor * 8
    else height0
  let height2 :=
    if mountainNoise > 0.2 then
      height1 + o.rpow ((mountainNoise - 0.2) / 0.8) 1.2 * 60
    else height1
  let height3 := height2 + hillNoise * 12
  let valleyNoise := o.noise (worldX * 0.005) (worldZ * 0.005)
  let height4 := if valleyNoise < -0.3 then height3 * 0.8 else height3
  height4 + 5

/-! ## Biome classification -/

/-- `BiomeType` tags (the worker uses numeric codes, see `biomeCode`). -/
inductive Biome where
  | water
  | sand
  | fields
  | forest
  | rocks
  deriving DecidableEq, Repr

/-- The worker's numeric `BiomeType` values (`ChunkWorker.ts`). -/
def biomeCode : Biome → ℕ
  | .water => 0
  | .sand => 1
  | .fields => 2
  | .forest => 3
  | .rocks => 4

/-- The worker's `biomeColors` table (`ChunkWorker.ts`), one RGB triple per
biome. -/
def biomeColor : Biome → List ℚ
  | .water => [0.231, 0.512, 0.965]
  | .sand => [0.992, 0.906, 0.541]
  | .fields => [0.518, 0.8, 0.09]
  | .forest => [0.302, 0.486, 0.059]
  | .rocks => [0.659, 0.639, 0.62]

/-- `ChunkManager.determineBiome(x, z, height)` (`ChunkManager.ts`):
moisture/temperature are sampled from the height generator's noise at the
documented offsets, then the first-match chain runs. -/
def determineBiome (noise : ℚ → ℚ → ℚ) (x z height : ℚ) : Biome :=
  let moisture := noise (x * 0.01) (z * 0.01)
  let temperature := noise ((x + 1000) * 0.008) ((z + 1000) * 0.008)
  if height < 0 then .water
  else if height < 1 ∨ (moisture > 0.3 ∧ temperature > 0.1 ∧ height < 3) then
    .sand
  else if height > 15 then .rocks
  else if moisture > -0.1 ∧ temperature > -0.5 ∧ height > 4 ∧ height < 18 then
    .forest
  else .fields

/-- The worker's inline biome decision chain (`ChunkWorker.ts`): starts at
`FIELDS` and the `if`/`else if` ladder reassigns it; given the sampled
moisture/temperature and the computed height. -/
def workerBiome (moisture temperature height : ℚ) : Biome :=
  if height < 0 then .water
  else if height < 1 ∨ (moisture > 0.3 ∧ temperature > 0.1 ∧ height < 3) then
    .sand
  else if height > 15 then .rocks
  else if moisture > -0.1 ∧ temperature > -0.5 ∧ height > 4 ∧ height < 18 then
    .forest
  else .fields

/-- First-match-wins evaluation of an ordered rule list with a default. -/
def firstMatchBiome : List (Bool × Biome) → Biome → Biome
  | [], d => d
  | (c, b) :: t, d => if c then b else firstMatchBiome t d

/-- The spec's decision list (section 4.2), written as an ordered
first-match-wins rule list: below water plane → WATER; low OR (moist AND
warm AND moderate) → SAND; high → ROCKS; moist AND warm AND mid-band →
FOREST; else FIELDS. -/
def specClassify (moisture temperature height : ℚ) : Biome :=
  firstMatchBiome
    [ (decide (height < 0), .water),
      (decide (height < 1) ||
        (decide (moisture > 0.3) && decide (temperature > 0.1) &&
          decide (height < 3)), .sand),
      (decide (height > 15), .rocks),
      (decide (moisture > -0.1) && decide (temperature > -0.5) &&
        decide (height > 4) && decide (height < 18), .forest) ]
    .fields

/-! ## Worker geometry builder (`generateChunkGeometry` in `ChunkWorker.ts`) -/

/-- Local grid coordinate `(i / resolution - 0.5) * chunkSize`. -/
def localCoord (req : GenRequest) (i : ℕ) : ℚ :=
  ((i : ℚ) / (req.chunkResolution : ℚ) - 0.5) * req.chunkSize

/-- World X of grid column `x`. -/
def worldCoordX (req : GenRequest) (x : ℕ) : ℚ :=
  localCoord req x + (req.chunkX : ℚ) * req.chunkSize

/-- World Z of grid row `z`. -/
def worldCoordZ (req : GenRequest) (z : ℕ) : ℚ :=
  localCoord req z + (req.chunkZ : ℚ) * req.chunkSize

/-- The worker's height at grid point `(z, x)`. -/
def heightAt (o : NoiseOracles) (req : GenRequest) (z x : ℕ) : ℚ :=
  workerHeight o req.heightGeneratorConfig.scale
    req.heightGeneratorConfig.heightScale (worldCoordX req x) (worldCoordZ req z)

/-- The worker's biome at grid point `(z, x)` (moisture and temperature are
sampled at the source's offsets from the world coordinates). -/
def biomeAt (o : NoiseOracles) (req : GenRequest) (z x : ℕ) : Biome :=
  workerBiome
    (o.noise (worldCoordX req x * 0.01) (worldCoordZ req z * 0.01))
    (o.noise ((worldCoordX req x + 1000) * 0.008)
      ((worldCoordZ req z + 1000) * 0.008))
    (heightAt o req z x)

/-- Row-major traversal of the `n × n` grid (`z` outer, `x` inner), matching
the source's nested `for` loops. -/
def gridCells (n : ℕ) : List (ℕ × ℕ) :=
  (List.range n).flatMap (fun z => (List.range n).map (fun x => (z, x)))

/-- The `try`-body of the worker's `generateChunkGeometry`: the vertex loop
pushes `[localX, height, localZ]`, an RGB triple and a biome code per grid
point of the `(resolution+1) × (resolution+1)` grid; the index loop pushes
the two triangles `[a, c, b]`, `[b, c, d]` per grid cell. -/
def generateChunkGeometryOk (o : NoiseOracles) (req : GenRequest) : GenResult :=
  let r := req.chunkResolution
  { id := req.id
    chunkX := req.chunkX
    chunkZ := req.chunkZ
    vertices := (gridCells (r + 1)).flatMap
      (fun p => [localCoord req p.2, heightAt o req p.1 p.2, localCoord req p.1])
    indices := (gridCells r).flatMap (fun p =>
      let a := p.1 * (r + 1) + p.2
      let b := p.1 * (r + 1) + p.2 + 1
      let c := (p.1 + 1) * (r + 1) + p.2
      let d := (p.1 + 1) * (r + 1) + p.2 + 1
      [a, c, b, b, c, d])
    colors := (gridCells (r + 1)).flatMap
      (fun p => biomeColor (biomeAt o req p.1 p.2))
    biomes := (gridCells (r + 1)).map
      (fun p => biomeCode (biomeAt o req p.1 p.2))
    success := true
    error := none }

/-- The `catch`-branch of `generateChunkGeometry`: echo the request identity,
empty buffers, `success: false` and the error message. -/
def generateChunkGeometryErr (req : GenRequest) (msg : String) : GenResult :=
  { id := req.id
    chunkX := req.chunkX
    chunkZ := req.chunkZ
    vertices := []
    indices := []
    colors := []
    biomes := []
    success := false
    error := some msg }

/-- The whole worker `generateChunkGeometry` with its `try`/`catch`.  No
statement of the embedded body can raise, so the thrown exception (an
environment event such as out-of-memory) is passed as the `thrown`
parameter: `none` runs the body, `some msg` models the body raising with
message `msg`. -/
def generateChunkGeometryRun (o : NoiseOracles) (thrown : Option String)
    (req : GenRequest) : GenResult :=
  match thrown with
  | none => generateChunkGeometryOk o req
  | some msg => generateChunkGeometryErr req msg

/-! ## Worker pool (`ChunkWorkerPool.ts`) -/

/-- A queued task: the request plus its promise, identified by the promise id
`pid` (each `generateChunk` call creates a fresh promise). -/
structure PoolTask where
  pid : ℕ
  request : GenRequest
  deriving DecidableEq

/-- State of a `ChunkWorkerPool`.  Workers are interchangeable in the model,
so `availableWorkers`/`busyWorkers` are counts; `taskQueue` is the source's
`taskQueue` (dispatched tasks stay in it until their result message arrives);
`inFlight` records the requests currently held by busy workers (the source
keeps this association implicitly in each worker's message handler);
`resolved`/`rejected` record settled promises in settlement order. -/
structure PoolState where
  availableWorkers : ℕ
  busyWorkers : ℕ
  taskQueue : List PoolTask
  inFlight : List PoolTask
  resolved : List (ℕ × GenResult)
  rejected : List (ℕ × String)
  deriving DecidableEq

/-- Pool state after `initialize()` with `maxWorkers = n`: all workers
available, nothing queued. -/
def poolInit (n : ℕ) : PoolState :=
  { availableWorkers := n
    busyWorkers := 0
    taskQueue := []
    inFlight := []
    resolved := []
    rejected := [] }

/-- `processNextTask()`: return when the queue is empty or no worker is
available; otherwise pop a worker and post it the task found by
`taskQueue.find(t => !busyWorkers.has(worker))` — the predicate ignores `t`
and is true for a just-popped available worker, so the *first* queued task is
posted.  The task is *not* removed from `taskQueue` (it is spliced out only
when its result message arrives). -/
def processNextTask (s : PoolState) : PoolState :=
  match s.taskQueue, s.availableWorkers with
  | [], _ => s
  | _, 0 => s
  | t :: _, n + 1 =>
      { s with
          availableWorkers := n
          busyWorkers := s.busyWorkers + 1
          inFlight := s.inFlight ++ [t] }

/-- `generateChunk(request)`: push the request with a fresh promise onto the
queue, then `processNextTask()`. -/
def poolSubmit (s : PoolState) (pid : ℕ) (req : GenRequest) : PoolState :=
  processNextTask { s with taskQueue := s.taskQueue ++ [⟨pid, req⟩] }

/-- The error message of a rejected failed result:
`new Error(result.error || 'Chunk generation failed')` (JS `||`: an absent or
empty message falls back to the default). -/
def failMsg : Option String → String
  | some e => if e = "" then "Chunk generation failed" else e
  | none => "Chunk generation failed"

/-- Remove the first element satisfying `p`, returning it; reproduces
`findIndex` followed by `splice(i, 1)[0]`. -/
def extractFirst {τ : Type} (p : τ → Bool) : List τ → Option τ × List τ
  | [] => (none, [])
  | x :: t =>
      if p x then (some x, t)
      else
        let r := extractFirst p t
        (r.1, x :: r.2)

/-- `handleWorkerMessage(worker, result)`: free the worker, splice the first
queued task whose request id matches the result id and settle its promise
(resolve on `success`, reject otherwise; no matching task → the result is
dropped), then `processNextTask()`. -/
def handleWorkerMessage (s : PoolState) (result : GenResult) : PoolState :=
  let s1 := { s with
      busyWorkers := s.busyWorkers - 1
      availableWorkers := s.availableWorkers + 1 }
  let ex := extractFirst (fun t => t.request.id == result.id) s1.taskQueue
  let s2 :=
    match ex.1 with
    | some t =>
        if result.success then
          { s1 with taskQueue := ex.2, resolved := s1.resolved ++ [(t.pid, result)] }
        else
          { s1 with taskQueue := ex.2,
                    rejected := s1.rejected ++ [(t.pid, failMsg result.error)] }
    | none => s1
  processNextTask s2

/-- A busy worker finishes the `i`-th in-flight request: it runs the worker's
`generateChunkGeometry` on it and posts the result, which the pool handles
with `handleWorkerMessage`. -/
def workerCompletes (s : PoolState) (o : NoiseOracles) (thrown : Option String)
    (i : ℕ) : PoolState :=
  match s.inFlight.get? i with
  | none => s
  | some t =>
      handleWorkerMessage { s with inFlight := s.inFlight.eraseIdx i }
        (generateChunkGeometryRun o thrown t.request)

/-- The message of a cancelled out-of-range task:
`Task for chunk (x, z) cancelled - out of range`. -/
def cancelMsg (x z : ℤ) : String :=
  "Task for chunk (" ++ toString x ++ ", " ++ toString z ++
    ") cancelled - out of range"

/-- The out-of-range test of `cancelOutOfRangeTasks` on one task. -/
def taskOutOfRange (cx cz : ℤ) (maxD : ℚ) (t : PoolTask) : Bool :=
  distGT (t.request.chunkX - cx) (t.request.chunkZ - cz) maxD

/-- The second loop of `cancelOutOfRangeTasks`: walk the collected indices in
*descending* order, splice each out of the queue and reject its promise,
counting.  (`idxs` is the descending index list; an out-of-range index cannot
occur and is skipped.) -/
def cancelLoop (queue : List PoolTask) (rejected : List (ℕ × String)) :
    List ℕ → ℕ × List PoolTask × List (ℕ × String)
  | [] => (0, queue, rejected)
  | i :: rest =>
      match queue.get? i with
      | some t =>
          let r := cancelLoop (queue.eraseIdx i)
            (rejected ++ [(t.pid, cancelMsg t.request.chunkX t.request.chunkZ)])
            rest
          (r.1 + 1, r.2)
      | none => cancelLoop queue rejected rest

/-- `cancelOutOfRangeTasks(centerX, centerZ, maxDistance)`: first pass
collects the indices of every queued task farther than `maxDistance`
(ascending); second pass splices them out in reverse order, rejecting each
promise; returns the count. -/
def cancelOutOfRangeTasks (s : PoolState) (cx cz : ℤ) (maxD : ℚ) :
    ℕ × PoolState :=
  let idxs := (List.range s.taskQueue.length).filter (fun i =>
    match s.taskQueue.get? i with
    | some t => taskOutOfRange cx cz maxD t
    | none => false)
  let r := cancelLoop s.taskQueue s.rejected idxs.reverse
  (r.1, { s with taskQueue := r.2.1, rejected := r.2.2 })

/-! ## Orchestrator resolution handling
(`ChunkManager.startNewGenerations`, `ChunkManager.ts`) -/

/-- The continuation of one submission inside `startNewGenerations`: when the
awaited `generateChunk` promise resolves, re-check the chunk's state and
apply the result only if it is still `GENERATING`; when it rejects, the
`catch` block sets the chunk back to `PENDING`. -/
def onGenerationSettled (s : CSM) (now : ℚ) (x z : ℤ)
    (outcome : Except String GenResult) : CSM :=
  match outcome with
  | .ok result =>
      if csmGetChunkState s x z = some .generating then
        csmSetChunkState s now x z .ready (some (.res result))
      else s
  | .error _ => csmSetChunkState s now x z .pending none

/-! ## Helper lemmas about the JS collection embeddings -/

theorem lookupKV_mapDelKV {K V : Type} [DecidableEq K] (l : List (K × V))
    (k k' : K) :
    lookupKV (mapDelKV l k) k' = if k' = k then none else lookupKV l k' := by
  induction l with
  | nil =>
      simp only [mapDelKV, List.filter_nil, lookupKV]
      split <;> rfl
  | cons p t ih =>
      obtain ⟨pk, pv⟩ := p
      simp only [mapDelKV, List.filter_cons] at ih ⊢
      by_cases hpk : pk = k <;> by_cases hk' : k' = k <;>
        by_cases hp' : pk = k' <;>
        simp_all [lookupKV]

theorem lookupKV_append {K V : Type} [DecidableEq K] (l1 l2 : List (K × V))
    (k : K) :
    lookupKV (l1 ++ l2) k =
      match lookupKV l1 k with
      | some v => some v
      | none => lookupKV l2 k := by
  induction l1 with
  | nil => simp [lookupKV]
  | cons p t ih =>
      obtain ⟨pk, pv⟩ := p
      by_cases hpk : pk = k <;> simp_all [lookupKV, List.cons_append]

theorem lookupKV_replaceAll {K V : Type} [DecidableEq K] (l : List (K × V))
    (k : K) (v : V) (k' : K) :
    lookupKV (l.map (fun p => if p.1 = k then (k, v) else p)) k' =
      if k' = k then (if (lookupKV l k).isSome then some v else none)
      else lookupKV l k' := by
  induction l with
  | nil =>
      simp only [List.map_nil, lookupKV, Option.isSome_none]
      split <;> rfl
  | cons p t ih =>
      obtain ⟨pk, pv⟩ := p
      simp only [List.map_cons]
      by_cases hpk : pk = k
      · subst hpk
        rw [show (if (pk, pv).1 = pk then (pk, v) else (pk, pv)) = (pk, v) from
          if_pos rfl]
        by_cases hk' : k' = pk
        · subst hk'
          simp [lookupKV]
        · have hk'2 : ¬ pk = k' := fun h => hk' h.symm
          simp only [lookupKV, if_neg hk'2, if_neg hk']
          rw [ih, if_neg hk']
      · rw [show (if (pk, pv).1 = k then (k, v) else (pk, pv)) = (pk, pv) from
          if_neg hpk]
        by_cases hp' : pk = k'
        · subst hp'
          simp only [lookupKV, if_pos rfl]
          rw [if_neg (fun h => hpk (h : pk = k))]
          simp
        · simp only [lookupKV, if_neg hp', if_neg hpk]
          rw [ih]

theorem lookupKV_mapSetKV {K V : Type} [DecidableEq K] (l : List (K × V))
    (k : K) (v : V) (k' : K) :
    lookupKV (mapSetKV l k v) k' = if k' = k then some v else lookupKV l k' := by
  unfold mapSetKV
  split
  · rename_i hsome
    rw [lookupKV_replaceAll]
    by_cases hk' : k' = k <;> simp_all
  · rename_i hnone
    have hn : lookupKV l k = none := by
      cases h : lookupKV l k with
      | none => rfl
      | some w => rw [h] at hnone; simp at hnone
    rw [lookupKV_append]
    by_cases hk' : k' = k
    · subst hk'
      rw [hn]
      simp [lookupKV]
    · cases h : lookupKV l k' with
      | none =>
          have hk2 : ¬ k = k' := fun hh => hk' hh.symm
          simp [lookupKV, hk', hk2, h]
      | some w => simp [hk', h]

theorem lookupKV_eq_some_mem {K V : Type} [DecidableEq K]
    {l : List (K × V)} {k : K} {v : V} (h : lookupKV l k = some v) :
    (k, v) ∈ l := by
  induction l with
  | nil => simp [lookupKV] at h
  | cons p t ih =>
      obtain ⟨pk, pv⟩ := p
      simp only [lookupKV] at h
      by_cases hpk : pk = k
      · subst hpk
        rw [if_pos rfl] at h
        cases h
        exact List.mem_cons_self _ _
      · rw [if_neg hpk] at h
        exact List.mem_cons_of_mem _ (ih h)

theorem lookupKV_eq_none_iff {K V : Type} [DecidableEq K]
    (l : List (K × V)) (k : K) :
    lookupKV l k = none ↔ ∀ p ∈ l, p.1 ≠ k := by
  induction l with
  | nil => simp [lookupKV]
  | cons p t ih =>
      obtain ⟨pk, pv⟩ := p
      simp only [lookupKV, List.mem_cons]
      by_cases hpk : pk = k
      · subst hpk
        simp
      · rw [if_neg hpk, ih]
        constructor
        · rintro h q (rfl | hq)
          · exact hpk
          · exact h q hq
        · intro h q hq
          exact h q (Or.inr hq)

theorem lookupKV_entry_map {K V : Type} [DecidableEq K] (l : List (K × V))
    (f : V → V) (k : K) :
    lookupKV (l.map (fun p => (p.1, f p.2))) k = (lookupKV l k).map f := by
  induction l with
  | nil => rfl
  | cons p t ih =>
      obtain ⟨pk, pv⟩ := p
      simp only [List.map_cons, lookupKV]
      by_cases hpk : pk = k
      · simp [hpk]
      · rw [if_neg hpk, if_neg hpk]
        exact ih

theorem mem_setAddK {K : Type} [DecidableEq K] (l : List K) (k k' : K) :
    k' ∈ setAddK l k ↔ k' ∈ l ∨ k' = k := by
  unfold setAddK
  split
  · rename_i hmem
    constructor
    · exact Or.inl
    · rintro (h | rfl)
      · exact h
      · exact hmem
  · simp [List.mem_append]

theorem mem_setDelK {K : Type} [DecidableEq K] (l : List K) (k k' : K) :
    k' ∈ setDelK l k ↔ k' ∈ l ∧ k' ≠ k := by
  simp [setDelK, List.mem_filter]

theorem ucss_fields (s : CSM) (k : ℤ × ℤ) (os ns : Option ChunkState) :
    (updateChunkStateSet s k os ns).chunks = s.chunks ∧
    (updateChunkStateSet s k os ns).centerX = s.centerX ∧
    (updateChunkStateSet s k os ns).centerZ = s.centerZ ∧
    (updateChunkStateSet s k os ns).renderRadius = s.renderRadius := by
  unfold updateChunkStateSet
  rcases os with _ | o <;> rcases ns with _ | n
  · exact ⟨rfl, rfl, rfl, rfl⟩
  · cases n <;> exact ⟨rfl, rfl, rfl, rfl⟩
  · cases o <;> exact ⟨rfl, rfl, rfl, rfl⟩
  · cases o <;> cases n <;> exact ⟨rfl, rfl, rfl, rfl⟩

theorem mem_ucss_pending (s : CSM) (key k : ℤ × ℤ) (os ns : Option ChunkState) :
    (k ∈ (updateChunkStateSet s key os ns).pendingChunks) ↔
      ((k ∈ s.pendingChunks ∧ ¬(os = some .pending ∧ k = key)) ∨
        (ns = some .pending ∧ k = key)) := by
  rcases os with _ | o <;> rcases ns with _ | n <;> (try cases o) <;>
    (try cases n) <;>
    simp [updateChunkStateSet, mem_setAddK, mem_setDelK]

theorem mem_ucss_ready (s : CSM) (key k : ℤ × ℤ) (os ns : Option ChunkState) :
    (k ∈ (updateChunkStateSet s key os ns).readyChunks) ↔
      ((k ∈ s.readyChunks ∧ ¬(os = some .ready ∧ k = key)) ∨
        (ns = some .ready ∧ k = key)) := by
  rcases os with _ | o <;> rcases ns with _ | n <;> (try cases o) <;>
    (try cases n) <;>
    simp [updateChunkStateSet, mem_setAddK, mem_setDelK]

theorem mem_ucss_rendered (s : CSM) (key k : ℤ × ℤ) (os ns : Option ChunkState) :
    (k ∈ (updateChunkStateSet s key os ns).renderedChunks) ↔
      ((k ∈ s.renderedChunks ∧ ¬(os = some .rendered ∧ k = key)) ∨
        (ns = some .rendered ∧ k = key)) := by
  rcases os with _ | o <;> rcases ns with _ | n <;> (try cases o) <;>
    (try cases n) <;>
    simp [updateChunkStateSet, mem_setAddK, mem_setDelK]

theorem lookup_ucss_generating (s : CSM) (key k : ℤ × ℤ)
    (os ns : Option ChunkState) :
    lookupKV (updateChunkStateSet s key os ns).generatingChunks k =
      (if os = some .generating ∧ k = key then none
       else lookupKV s.generatingChunks k) := by
  rcases os with _ | o <;> rcases ns with _ | n <;> (try cases o) <;>
    (try cases n) <;>
    simp [updateChunkStateSet, lookupKV_mapDelKV]

/-! ## Claim C1 -/

/-- C1: the synchronous main-thread height path and the worker height path
compute the *same formula*: for any shared noise/pow primitives and
configuration they agree at every coordinate (first conjunct).  However, the
height of the synchronous path genuinely depends on its noise primitive
(second conjunct, two concrete oracles yielding different heights at the
same coordinate) — and in the source that primitive is a `ts-noise` Perlin
instance seeded from `Math.random()` and is a different algorithm from the
worker's seed-derived `PerlinNoise`, so the two paths are not bit-identical
functions of `(seed, x, z)`; see the C1 entry of the results. -/
theorem c1_height_formula_parity :
    (∀ (o : NoiseOracles) (scale heightScale x z : ℚ),
        mainGenerateHeight o scale heightScale x z =
          workerHeight o scale heightScale x z) ∧
    mainGenerateHeight ⟨fun _ _ => 0, fun _ _ => 0⟩ 0.015 30 0 0 ≠
      mainGenerateHeight ⟨fun _ _ => 1, fun _ _ => 1⟩ 0.015 30 0 0 :=
  ⟨fun _ _ _ _ _ => rfl, by norm_num [mainGenerateHeight, octaveSum]⟩

/-! ## Claim C8 -/

theorem workerBiome_eq_specClassify (m t h : ℚ) :
    workerBiome m t h = specClassify m t h := by
  have hb : ∀ (c : Bool) (b : Biome) (rest : List (Bool × Biome)) (d : Biome),
      firstMatchBiome ((c, b) :: rest) d = if c then b else firstMatchBiome rest d :=
    fun _ _ _ _ => rfl
  unfold workerBiome specClassify
  by_cases h0 : h < 0
  · simp [hb, h0]
  · rw [if_neg h0]
    have c1 : decide (h < 0) = false := by simp [h0]
    by_cases hsand : h < 1 ∨ (m > 0.3 ∧ t > 0.1 ∧ h < 3)
    · rw [if_pos hsand]
      have c2 : (decide (h < 1) || (decide (m > 0.3) && decide (t > 0.1) &&
          decide (h < 3))) = true := by
        simp only [Bool.or_eq_true, Bool.and_eq_true, decide_eq_true_eq]
        tauto
      simp [hb, c1, c2]
    · rw [if_neg hsand]
      have c2 : (decide (h < 1) || (decide (m > 0.3) && decide (t > 0.1) &&
          decide (h < 3))) = false := by
        rw [Bool.eq_false_iff]
        intro hx
        apply hsand
        revert hx
        simp only [Bool.or_eq_true, Bool.and_eq_true, decide_eq_true_eq]
        tauto
      by_cases hrocks : h > 15
      · simp [hb, c1, c2, hrocks]
      · by_cases hforest : m > -0.1 ∧ t > -0.5 ∧ h > 4 ∧ h < 18
        · rw [if_neg hrocks, if_pos hforest]
          have c3 : decide (h > 15) = false := by simp [hrocks]
          have c4 : (decide (m > -0.1) && decide (t > -0.5) && decide (h > 4) &&
              decide (h < 18)) = true := by
            simp only [Bool.and_eq_true, decide_eq_true_eq]
            tauto
          simp [hb, c1, c2, c3, c4, firstMatchBiome]
        · rw [if_neg hrocks, if_neg hforest]
          have c3 : decide (h > 15) = false := by simp [hrocks]
          have c4 : (decide (m > -0.1) && decide (t > -0.5) && decide (h > 4) &&
              decide (h < 18)) = false := by
            rw [Bool.eq_false_iff]
            intro hx
            apply hforest
            revert hx
            simp only [Bool.and_eq_true, decide_eq_true_eq]
            tauto
          simp [hb, c1, c2, c3, c4, firstMatchBiome]

/-- C8: the biome classifier is total with values among the five tags,
`ChunkManager.determineBiome` and the worker's inline chain agree as
first-match-wins classifiers in the spec's rule order (via `specClassify`),
and any height below the water plane yields WATER regardless of moisture and
temperature. -/
theorem c8_biome_classifier :
    (∀ (noise : ℚ → ℚ → ℚ) (x z h : ℚ),
        determineBiome noise x z h =
          workerBiome (noise (x * 0.01) (z * 0.01))
            (noise ((x + 1000) * 0.008) ((z + 1000) * 0.008)) h) ∧
    (∀ m t h : ℚ, workerBiome m t h = specClassify m t h) ∧
    (∀ m t h : ℚ,
        workerBiome m t h = .water ∨ workerBiome m t h = .sand ∨
        workerBiome m t h = .rocks ∨ workerBiome m t h = .forest ∨
        workerBiome m t h = .fields) ∧
    (∀ m t h : ℚ, h < 0 → workerBiome m t h = .water) := by
  refine ⟨fun noise x z h => rfl, workerBiome_eq_specClassify, ?_, ?_⟩
  · intro m t h
    unfold workerBiome
    split_ifs <;> simp
  · intro m t h hlt
    unfold workerBiome
    rw [if_pos hlt]

/-- C8 witness: a concrete below-water-plane input classifies as WATER. -/
theorem c8_witness : (-1 : ℚ) < 0 ∧ workerBiome 0 0 (-1) = .water :=
  ⟨by norm_num, c8_biome_classifier.2.2.2 0 0 (-1) (by norm_num)⟩

/-! ## Claim C9 -/

theorem addChunk_chunks (s : CSM) (now : ℚ) (x z : ℤ) (st : ChunkState) :
    (csmAddChunk s now x z st).chunks =
      (if (lookupKV s.chunks (getChunkKey x z)).isSome then s.chunks
       else mapSetKV s.chunks (getChunkKey x z)
        { key := getChunkKey x z, x := x, z := z, state := st,
          generationId := none, geometryData := none,
          priorityD2 := calcD2 s.centerX s.centerZ x z, lastAccessed := now }) := by
  unfold csmAddChunk
  split
  · rename_i h
    rw [if_pos h]
  · rename_i h
    rw [if_neg h, (ucss_fields _ _ _ _).1]

theorem addChunk_of_tracked (s : CSM) (now : ℚ) (x z : ℤ) (st : ChunkState)
    (h : (lookupKV s.chunks (getChunkKey x z)).isSome = true) :
    csmAddChunk s now x z st = s := by
  unfold csmAddChunk
  rw [if_pos h]

theorem countP_key_nodup {K V : Type} [DecidableEq K] (l : List (K × V)) (k : K)
    (hnd : (l.map Prod.fst).Nodup) (hmem : (lookupKV l k).isSome = true) :
    l.countP (fun p => decide (p.1 = k)) = 1 := by
  induction l with
  | nil => simp [lookupKV] at hmem
  | cons p tl ih =>
      obtain ⟨pk, pv⟩ := p
      simp only [List.map_cons, List.nodup_cons] at hnd
      by_cases hpk : pk = k
      · subst hpk
        rw [List.countP_cons]
        have h0 : tl.countP (fun p => decide (p.1 = pk)) = 0 := by
          rw [List.countP_eq_zero]
          intro q hq
          simp only [decide_eq_true_eq]
          intro hqk
          exact hnd.1 (by rw [← hqk]; exact List.mem_map_of_mem _ hq)
        simp [h0]
      · rw [List.countP_cons]
        have hm : (lookupKV tl k).isSome = true := by
          simpa [lookupKV, hpk] using hmem
        rw [ih hnd.2 hm]
        simp [hpk]

theorem addChunk_nodup (s : CSM) (now : ℚ) (x z : ℤ) (st : ChunkState)
    (hnd : (s.chunks.map Prod.fst).Nodup) :
    ((csmAddChunk s now x z st).chunks.map Prod.fst).Nodup := by
  rw [addChunk_chunks]
  split
  · exact hnd
  · rename_i h
    have hn : lookupKV s.chunks (getChunkKey x z) = none := by
      cases hl : lookupKV s.chunks (getChunkKey x z) with
      | none => rfl
      | some c => rw [hl] at h; simp at h
    rw [mapSetKV, if_neg (by rw [hn]; simp)]
    rw [List.map_append, List.nodup_append]
    refine ⟨hnd, by simp, ?_⟩
    intro a ha
    simp only [List.map_cons, List.map_nil, List.mem_cons, List.not_mem_nil,
      or_false]
    intro heq
    subst heq
    rw [lookupKV_eq_none_iff] at hn
    obtain ⟨q, hq, hq2⟩ := List.mem_map.mp ha
    exact hn q hq (by rw [hq2])

/-- C9: `addChunk` is idempotent — with tracked coordinates unique, a second
`addChunk` on the same coordinate (with any state argument) changes nothing
and exactly one tracked entry for the coordinate remains; and `removeChunk`
on an untracked coordinate is a no-op returning the state unchanged. -/
theorem c9_addChunk_idempotent_removeChunk_noop (s : CSM) (now now2 : ℚ)
    (x z : ℤ) (st st2 : ChunkState) (hnd : (s.chunks.map Prod.fst).Nodup) :
    csmAddChunk (csmAddChunk s now x z st) now2 x z st2 =
      csmAddChunk s now x z st ∧
    ((csmAddChunk (csmAddChunk s now x z st) now2 x z st2).chunks.countP
      (fun p => decide (p.1 = getChunkKey x z)) = 1) ∧
    (lookupKV s.chunks (getChunkKey x z) = none → csmRemoveChunk s x z = s) := by
  have hsome :
      (lookupKV (csmAddChunk s now x z st).chunks (getChunkKey x z)).isSome
        = true := by
    rw [addChunk_chunks]
    split
    · assumption
    · rw [lookupKV_mapSetKV]
      simp
  have heq := addChunk_of_tracked (csmAddChunk s now x z st) now2 x z st2 hsome
  refine ⟨heq, ?_, ?_⟩
  · rw [heq]
    exact countP_key_nodup _ _ (addChunk_nodup s now x z st hnd) hsome
  · intro hnone
    unfold csmRemoveChunk
    simp only [hnone]

/-- C9 witness: on the fresh manager, adding (0,0) twice keeps one entry and
removing the untracked (1,1) is a no-op. -/
theorem c9_witness :
    csmAddChunk (csmAddChunk csmInit 0 0 0 .pending) 1 0 0 .ready =
      csmAddChunk csmInit 0 0 0 .pending ∧
    ((csmAddChunk (csmAddChunk csmInit 0 0 0 .pending) 1 0 0 .ready).chunks.countP
      (fun p => decide (p.1 = getChunkKey 0 0)) = 1) := by
  have h := c9_addChunk_idempotent_removeChunk_noop csmInit 0 1 0 0 .pending
    .ready (by simp [csmInit])
  exact ⟨h.1, h.2.1⟩

/-! ## Claim C5 -/

theorem length_flatMap_const {α β : Type} (l : List α) (f : α → List β) (c : ℕ)
    (h : ∀ a ∈ l, (f a).length = c) : (l.flatMap f).length = c * l.length := by
  induction l with
  | nil => simp
  | cons a t ih =>
      rw [List.flatMap_cons, List.length_append, h a (List.mem_cons_self _ _),
        ih (fun b hb => h b (List.mem_cons_of_mem _ hb))]
      simp [List.length_cons, Nat.mul_succ]
      ring

theorem gridCells_length (n : ℕ) : (gridCells n).length = n * n := by
  unfold gridCells
  rw [length_flatMap_const _ _ n (fun a _ => by simp), List.length_range]

theorem mem_gridCells {n : ℕ} {p : ℕ × ℕ} (h : p ∈ gridCells n) :
    p.1 < n ∧ p.2 < n := by
  unfold gridCells at h
  rw [List.mem_flatMap] at h
  obtain ⟨z, hz, hp⟩ := h
  rw [List.mem_map] at hp
  obtain ⟨x, hx, rfl⟩ := hp
  exact ⟨List.mem_range.mp hz, List.mem_range.mp hx⟩

theorem biomeColor_length (b : Biome) : (biomeColor b).length = 3 := by
  cases b <;> rfl

/-- C5: a successful worker generation at resolution `r` has exactly
`(r+1)²` vertices (`3(r+1)²` position floats), exactly `6r²` indices, every
index below `(r+1)²`, and one RGB color triple and one biome tag per vertex. -/
theorem c5_geometry_invariants (o : NoiseOracles) (req : GenRequest)
    (hr : 1 ≤ req.chunkResolution) :
    ((generateChunkGeometryOk o req).vertices.length =
      3 * (req.chunkResolution + 1) ^ 2) ∧
    ((generateChunkGeometryOk o req).indices.length =
      6 * req.chunkResolution ^ 2) ∧
    (∀ i ∈ (generateChunkGeometryOk o req).indices,
      i < (req.chunkResolution + 1) ^ 2) ∧
    ((generateChunkGeometryOk o req).colors.length =
      3 * (req.chunkResolution + 1) ^ 2) ∧
    ((generateChunkGeometryOk o req).biomes.length =
      (req.chunkResolution + 1) ^ 2) := by
  unfold generateChunkGeometryOk
  refine ⟨?_, ?_, ?_, ?_, ?_⟩
  · refine (length_flatMap_const _ _ 3 (fun a _ => by rfl)).trans ?_
    rw [gridCells_length]
    ring
  · refine (length_flatMap_const _ _ 6 (fun a _ => by rfl)).trans ?_
    rw [gridCells_length]
    ring
  · intro i hi
    simp only [List.mem_flatMap] at hi
    obtain ⟨p, hp, hip⟩ := hi
    obtain ⟨hz, hx⟩ := mem_gridCells hp
    set r := req.chunkResolution with hrdef
    simp only [List.mem_cons, List.not_mem_nil, or_false] at hip
    rcases hip with rfl | rfl | rfl | rfl | rfl | rfl
    · nlinarith
    · nlinarith
    · nlinarith
    · nlinarith
    · nlinarith
    · nlinarith
  · refine (length_flatMap_const _ _ 3 (fun a _ => biomeColor_length _)).trans ?_
    rw [gridCells_length]
    ring
  · rw [List.length_map, gridCells_length]
    ring

/-- Concrete oracle (constant noise and pow) for evaluating witnesses. -/
def zeroOracle : NoiseOracles := ⟨fun _ _ => 0, fun _ _ => 0⟩

/-- Concrete request for the C5 witness, resolution 1. -/
def c5req : GenRequest :=
  { id := "w"
    chunkX := 0
    chunkZ := 0
    chunkSize := 100
    chunkResolution := 1
    heightGeneratorConfig :=
      { seed := 42, scale := 0, heightScale := 0, octaves := 6,
        persistence := 0.5, lacunarity := 2 } }

/-- C5 witness: the invariants evaluated at resolution 1. -/
theorem c5_witness :
    1 ≤ c5req.chunkResolution ∧
    ((generateChunkGeometryOk zeroOracle c5req).vertices.length =
      3 * (c5req.chunkResolution + 1) ^ 2) ∧
    ((generateChunkGeometryOk zeroOracle c5req).indices.length =
      6 * c5req.chunkResolution ^ 2) ∧
    (∀ i ∈ (generateChunkGeometryOk zeroOracle c5req).indices,
      i < (c5req.chunkResolution + 1) ^ 2) ∧
    ((generateChunkGeometryOk zeroOracle c5req).colors.length =
      3 * (c5req.chunkResolution + 1) ^ 2) ∧
    ((generateChunkGeometryOk zeroOracle c5req).biomes.length =
      (c5req.chunkResolution + 1) ^ 2) :=
  ⟨by decide, c5_geometry_invariants zeroOracle c5req (by decide)⟩

/-! ## Claim C10 -/

theorem processNextTask_settled (s : PoolState) :
    (processNextTask s).resolved = s.resolved ∧
    (processNextTask s).rejected = s.rejected := by
  unfold processNextTask
  cases htq : s.taskQueue <;> cases hav : s.availableWorkers <;> simp

/-- C10: the worker's `generateChunkGeometry` echoes the request's identity
fields in its result; an exception in the body yields `success = false`, the
error message, and all four buffers empty (while `thrown = none` yields
`success = true`); and on a result whose id matches a queued task, the pool
resolves that task's promise exactly when `success` is true and rejects it
otherwise. -/
theorem c10_worker_result_protocol (o : NoiseOracles) (thrown : Option String)
    (req : GenRequest) (s : PoolState) :
    ((generateChunkGeometryRun o thrown req).id = req.id ∧
      (generateChunkGeometryRun o thrown req).chunkX = req.chunkX ∧
      (generateChunkGeometryRun o thrown req).chunkZ = req.chunkZ) ∧
    (∀ msg, thrown = some msg →
      (generateChunkGeometryRun o thrown req).success = false ∧
      (generateChunkGeometryRun o thrown req).error = some msg ∧
      (generateChunkGeometryRun o thrown req).vertices = [] ∧
      (generateChunkGeometryRun o thrown req).indices = [] ∧
      (generateChunkGeometryRun o thrown req).colors = [] ∧
      (generateChunkGeometryRun o thrown req).biomes = []) ∧
    (thrown = none → (generateChunkGeometryRun o thrown req).success = true) ∧
    (∀ (res : GenResult) (t : PoolTask) (rest : List PoolTask),
      extractFirst (fun t2 => t2.request.id == res.id) s.taskQueue =
        (some t, rest) →
      (res.success = true →
        (handleWorkerMessage s res).resolved = s.resolved ++ [(t.pid, res)] ∧
        (handleWorkerMessage s res).rejected = s.rejected) ∧
      (res.success = false →
        (handleWorkerMessage s res).rejected =
          s.rejected ++ [(t.pid, failMsg res.error)] ∧
        (handleWorkerMessage s res).resolved = s.resolved)) := by
  refine ⟨?_, ?_, ?_, ?_⟩
  · cases thrown <;> exact ⟨rfl, rfl, rfl⟩
  · intro msg hmsg
    subst hmsg
    exact ⟨rfl, rfl, rfl, rfl, rfl, rfl⟩
  · intro hnone
    subst hnone
    rfl
  · intro res t rest hex
    unfold handleWorkerMessage
    simp only [hex]
    constructor
    · intro hsucc
      rw [hsucc]
      simp only [if_true]
      constructor
      · rw [(processNextTask_settled _).1]
      · rw [(processNextTask_settled _).2]
    · intro hfail
      rw [hfail]
      simp only [Bool.false_eq_true, if_false]
      constructor
      · rw [(processNextTask_settled _).2]
      · rw [(processNextTask_settled _).1]

/-- C10 witness: a submitted request's successful result resolves its
promise. -/
theorem c10_witness :
    (generateChunkGeometryRun zeroOracle none c5req).id = c5req.id ∧
    ((handleWorkerMessage (poolSubmit (poolInit 0) 0 c5req)
        (generateChunkGeometryRun zeroOracle none c5req)).resolved =
      (poolSubmit (poolInit 0) 0 c5req).resolved ++
        [(0, generateChunkGeometryRun zeroOracle none c5req)]) := by
  have h := c10_worker_result_protocol zeroOracle none c5req
    (poolSubmit (poolInit 0) 0 c5req)
  refine ⟨h.1.1, ?_⟩
  exact ((h.2.2.2 (generateChunkGeometryRun zeroOracle none c5req)
    ⟨0, c5req⟩ [] (by rfl)).1 (by rfl)).1

/-! ## Claim C6 -/

/-- C6: when a submission resolves while the chunk is still `GENERATING`, it
moves to `READY` carrying the payload; when it resolves for a chunk no longer
`GENERATING`, the whole manager state is unchanged (silent discard, nothing
thrown); when it rejects, a tracked chunk moves back to `PENDING` (and an
untracked one is silently ignored by `setChunkState`). -/
theorem c6_resolution_handling (s : CSM) (now : ℚ) (x z : ℤ)
    (res : GenResult) (e : String) :
    ((∃ c, lookupKV s.chunks (getChunkKey x z) = some c ∧
        c.state = .generating) →
      ∃ c2, lookupKV (onGenerationSettled s now x z (.ok res)).chunks
          (getChunkKey x z) = some c2 ∧
        c2.state = .ready ∧ c2.geometryData = some (.res res)) ∧
    (csmGetChunkState s x z ≠ some .generating →
      onGenerationSettled s now x z (.ok res) = s) ∧
    ((∃ c, lookupKV s.chunks (getChunkKey x z) = some c) →
      ∃ c2, lookupKV (onGenerationSettled s now x z (.error e)).chunks
          (getChunkKey x z) = some c2 ∧ c2.state = .pending) ∧
    (lookupKV s.chunks (getChunkKey x z) = none →
      onGenerationSettled s now x z (.error e) = s) := by
  have hok : onGenerationSettled s now x z (.ok res) =
      (if csmGetChunkState s x z = some .generating then
        csmSetChunkState s now x z .ready (some (.res res))
      else s) := rfl
  have herr : onGenerationSettled s now x z (.error e) =
      csmSetChunkState s now x z .pending none := rfl
  refine ⟨?_, ?_, ?_, ?_⟩
  · rintro ⟨c, hc, hst⟩
    have hgs : csmGetChunkState s x z = some .generating := by
      unfold csmGetChunkState
      rw [hc]
      simp [hst]
    rw [hok, if_pos hgs]
    unfold csmSetChunkState
    simp only [hc]
    rw [(ucss_fields _ _ _ _).1, lookupKV_mapSetKV]
    simp [SCData.truthy]
  · intro hne
    rw [hok, if_neg hne]
  · rintro ⟨c, hc⟩
    rw [herr]
    unfold csmSetChunkState
    simp only [hc]
    rw [(ucss_fields _ _ _ _).1, lookupKV_mapSetKV]
    simp
  · intro hnone
    rw [herr]
    unfold csmSetChunkState
    simp only [hnone]

/-- Manager state with (0,0) tracked and `GENERATING`, for the C6 witness. -/
def c6state : CSM :=
  csmSetChunkState (csmAddChunk csmInit 0 0 0 .pending) 1 0 0 .generating
    (some (.str "g1"))

/-- C6 witness: a successful resolution of the generating chunk (0,0) moves
it to `READY` with the payload, and an untracked rejection is a no-op. -/
theorem c6_witness :
    (∃ c2, lookupKV (onGenerationSettled c6state 2 0 0
        (.ok (generateChunkGeometryRun zeroOracle none c5req))).chunks
          (getChunkKey 0 0) = some c2 ∧
      c2.state = .ready ∧
      c2.geometryData =
        some (.res (generateChunkGeometryRun zeroOracle none c5req))) ∧
    onGenerationSettled c6state 2 1 1 (.error "boom") = c6state := by
  have h := c6_resolution_handling c6state 2 0 0
    (generateChunkGeometryRun zeroOracle none c5req) "ignored"
  have h2 := c6_resolution_handling c6state 2 1 1
    (generateChunkGeometryRun zeroOracle none c5req) "boom"
  exact ⟨h.1 ⟨_, rfl, rfl⟩, h2.2.2.2 (by rfl)⟩

/-! ## Claim C3 -/

theorem eraseIdx_append_left {α : Type} (l1 l2 : List α) (i : ℕ)
    (h : i < l1.length) :
    (l1 ++ l2).eraseIdx i = l1.eraseIdx i ++ l2 := by
  induction l1 generalizing i with
  | nil => simp at h
  | cons a t ih =>
      cases i with
      | zero => simp
      | succ n =>
          simp only [List.cons_append, List.eraseIdx_cons_succ]
          rw [ih]
          simpa using h

theorem eraseIdx_concat_length {α : Type} (l : List α) (x : α) :
    (l ++ [x]).eraseIdx l.length = l := by
  induction l with
  | nil => rfl
  | cons a t ih =>
      simp only [List.cons_append, List.length_cons, List.eraseIdx_cons_succ]
      rw [ih]

/-- The first-pass index collection of `cancelOutOfRangeTasks` (ascending
indices of out-of-range queued tasks). -/
def outIdxs (cx cz : ℤ) (maxD : ℚ) (q : List PoolTask) : List ℕ :=
  (List.range q.length).filter (fun i =>
    match q.get? i with
    | some t => taskOutOfRange cx cz maxD t
    | none => false)

theorem outIdxs_lt (cx cz : ℤ) (maxD : ℚ) (q : List PoolTask) :
    ∀ i ∈ outIdxs cx cz maxD q, i < q.length := by
  intro i hi
  unfold outIdxs at hi
  exact List.mem_range.mp (List.mem_of_mem_filter hi)

theorem outIdxs_pairwise (cx cz : ℤ) (maxD : ℚ) (q : List PoolTask) :
    (outIdxs cx cz maxD q).Pairwise (· < ·) := by
  exact (List.pairwise_lt_range _).filter _

theorem outIdxs_concat (cx cz : ℤ) (maxD : ℚ) (q : List PoolTask)
    (x : PoolTask) :
    outIdxs cx cz maxD (q ++ [x]) =
      outIdxs cx cz maxD q ++
        (if taskOutOfRange cx cz maxD x then [q.length] else []) := by
  unfold outIdxs
  rw [List.length_append, List.length_cons, List.length_nil]
  rw [show q.length + (0 + 1) = q.length + 1 from by omega]
  rw [List.range_succ, List.filter_append]
  congr 1
  · apply List.filter_congr
    intro i hi
    have hlt : i < q.length := List.mem_range.mp hi
    rw [List.get?_append hlt]
  · rw [List.filter_cons, List.filter_nil]
    rw [List.get?_concat_length]

theorem cancelLoop_concat_of_lt (idxs : List ℕ) (q : List PoolTask)
    (x : PoolTask) (rej : List (ℕ × String))
    (hlt : ∀ i ∈ idxs, i < q.length) (hpw : idxs.Pairwise (· > ·)) :
    cancelLoop (q ++ [x]) rej idxs =
      ((cancelLoop q rej idxs).1, (cancelLoop q rej idxs).2.1 ++ [x],
        (cancelLoop q rej idxs).2.2) := by
  induction idxs generalizing q rej with
  | nil => rfl
  | cons i rest ih =>
      have hi : i < q.length := hlt i (List.mem_cons_self _ _)
      cases hq : q.get? i with
      | none =>
          rw [List.get?_eq_none] at hq
          omega
      | some t =>
          have hq2 : (q ++ [x]).get? i = some t := by
            rw [List.get?_append hi, hq]
          have herase : (q ++ [x]).eraseIdx i = q.eraseIdx i ++ [x] :=
            eraseIdx_append_left q [x] i hi
          have hlen : (q.eraseIdx i).length = q.length - 1 := by
            rw [List.length_eraseIdx]
            simp [hi]
          have hlt2 : ∀ j ∈ rest, j < (q.eraseIdx i).length := by
            intro j hj
            have hji : j < i := by
              have := (List.pairwise_cons.mp hpw).1 j hj
              exact this
            omega
          unfold cancelLoop
          rw [hq, hq2, herase]
          dsimp only
          rw [ih (q.eraseIdx i) _ hlt2 (List.pairwise_cons.mp hpw).2]

theorem cancelLoop_spec (cx cz : ℤ) (maxD : ℚ) (q : List PoolTask)
    (rej : List (ℕ × String)) :
    cancelLoop q rej (outIdxs cx cz maxD q).reverse =
      ((q.filter (taskOutOfRange cx cz maxD)).length,
        q.filter (fun t => ! taskOutOfRange cx cz maxD t),
        rej ++ (q.filter (taskOutOfRange cx cz maxD)).reverse.map
          (fun t => (t.pid, cancelMsg t.request.chunkX t.request.chunkZ))) := by
  induction q using List.reverseRecOn generalizing rej with
  | nil => simp [outIdxs, cancelLoop]
  | append_singleton q x ih =>
      rw [outIdxs_concat]
      by_cases hx : taskOutOfRange cx cz maxD x
      · rw [if_pos hx, List.reverse_append]
        simp only [List.reverse_cons, List.reverse_nil, List.nil_append,
          List.singleton_append]
        unfold cancelLoop
        rw [List.get?_concat_length, eraseIdx_concat_length]
        dsimp only
        rw [ih]
        rw [List.filter_append, List.filter_append]
        simp [hx]
      · rw [if_neg hx, List.append_nil]
        rw [cancelLoop_concat_of_lt _ _ _ _
          (fun i hi => outIdxs_lt cx cz maxD q i (List.mem_reverse.mp hi))
          (by
            rw [List.pairwise_reverse]
            exact outIdxs_pairwise cx cz maxD q)]
        rw [ih]
        rw [List.filter_append, List.filter_append]
        simp [hx]

/-- Full characterization of `cancelOutOfRangeTasks` (helper shared by the
C3 theorem and counterexample): it removes exactly the out-of-range queued
tasks — dispatched or not — rejecting each (in reverse queue order) and
returning their count; workers, in-flight assignments and resolved promises
are untouched. -/
theorem cancelOutOfRange_spec (s : PoolState) (cx cz : ℤ) (maxD : ℚ) :
    (cancelOutOfRangeTasks s cx cz maxD).1 =
      (s.taskQueue.filter (taskOutOfRange cx cz maxD)).length ∧
    (cancelOutOfRangeTasks s cx cz maxD).2.taskQueue =
      s.taskQueue.filter (fun t => ! taskOutOfRange cx cz maxD t) ∧
    (cancelOutOfRangeTasks s cx cz maxD).2.rejected =
      s.rejected ++ (s.taskQueue.filter (taskOutOfRange cx cz maxD)).reverse.map
        (fun t => (t.pid, cancelMsg t.request.chunkX t.request.chunkZ)) ∧
    (cancelOutOfRangeTasks s cx cz maxD).2.resolved = s.resolved ∧
    (cancelOutOfRangeTasks s cx cz maxD).2.inFlight = s.inFlight ∧
    (cancelOutOfRangeTasks s cx cz maxD).2.availableWorkers =
      s.availableWorkers ∧
    (cancelOutOfRangeTasks s cx cz maxD).2.busyWorkers = s.busyWorkers := by
  unfold cancelOutOfRangeTasks
  rw [show ((List.range s.taskQueue.length).filter (fun i =>
      match s.taskQueue.get? i with
      | some t => taskOutOfRange cx cz maxD t
      | none => false)) = outIdxs cx cz maxD s.taskQueue from rfl]
  dsimp only
  rw [cancelLoop_spec]
  exact ⟨rfl, rfl, rfl, rfl, rfl, rfl, rfl⟩

theorem extractFirst_none {τ : Type} (p : τ → Bool) (l : List τ)
    (h : ∀ a ∈ l, p a = false) : extractFirst p l = (none, l) := by
  induction l with
  | nil => rfl
  | cons a t ih =>
      unfold extractFirst
      rw [h a (List.mem_cons_self _ _)]
      simp only [Bool.false_eq_true, if_false]
      rw [ih (fun b hb => h b (List.mem_cons_of_mem _ hb))]

/-- C3 (amended): `cancelOutOfRangeTasks` removes and rejects exactly the
*queued* requests beyond `maxDistance` — whether or not already dispatched to
a worker, since dispatched tasks remain in `taskQueue` until their result
arrives — returning their count; in-range queued requests, in-flight
assignments, workers and resolved promises are untouched, and a later worker
result whose id no longer matches any queued task settles no promise. -/
theorem c3_cancel_out_of_range (s : PoolState) (cx cz : ℤ) (maxD : ℚ) :
    ((cancelOutOfRangeTasks s cx cz maxD).1 =
      (s.taskQueue.filter (taskOutOfRange cx cz maxD)).length ∧
     (cancelOutOfRangeTasks s cx cz maxD).2.taskQueue =
      s.taskQueue.filter (fun t => ! taskOutOfRange cx cz maxD t) ∧
     (cancelOutOfRangeTasks s cx cz maxD).2.rejected =
      s.rejected ++
        (s.taskQueue.filter (taskOutOfRange cx cz maxD)).reverse.map
          (fun t => (t.pid, cancelMsg t.request.chunkX t.request.chunkZ)) ∧
     (cancelOutOfRangeTasks s cx cz maxD).2.resolved = s.resolved ∧
     (cancelOutOfRangeTasks s cx cz maxD).2.inFlight = s.inFlight ∧
     (cancelOutOfRangeTasks s cx cz maxD).2.availableWorkers =
       s.availableWorkers ∧
     (cancelOutOfRangeTasks s cx cz maxD).2.busyWorkers = s.busyWorkers) ∧
    (∀ res : GenResult,
      (∀ t ∈ (cancelOutOfRangeTasks s cx cz maxD).2.taskQueue,
        (t.request.id == res.id) = false) →
      (handleWorkerMessage (cancelOutOfRangeTasks s cx cz maxD).2 res).resolved
          = (cancelOutOfRangeTasks s cx cz maxD).2.resolved ∧
      (handleWorkerMessage (cancelOutOfRangeTasks s cx cz maxD).2 res).rejected
          = (cancelOutOfRangeTasks s cx cz maxD).2.rejected) := by
  refine ⟨cancelOutOfRange_spec s cx cz maxD, ?_⟩
  intro res hnm
  unfold handleWorkerMessage
  dsimp only
  rw [extractFirst_none _ _ hnm]
  dsimp only
  exact ⟨(processNextTask_settled _).1, (processNextTask_settled _).2⟩

/-- Out-of-range request (chunk (10,10)) for the C3 counterexample. -/
def c3req : GenRequest :=
  { id := "far"
    chunkX := 10
    chunkZ := 10
    chunkSize := 100
    chunkResolution := 4
    heightGeneratorConfig :=
      { seed := 42, scale := 0.015, heightScale := 30, octaves := 6,
        persistence := 0.5, lacunarity := 2 } }

/-- C3 counterexample: with one worker, a single submitted request is
dispatched immediately (it is in flight and its worker busy) yet
`cancelOutOfRangeTasks` still counts it and rejects its promise, returning 1
where the claim as stated (only queued-but-not-yet-dispatched requests are
cancelled) requires 0. -/
theorem c3_counterexample :
    ((poolSubmit (poolInit 1) 0 c3req).inFlight.map (fun t => t.pid) = [0]) ∧
    ((poolSubmit (poolInit 1) 0 c3req).busyWorkers = 1) ∧
    ((cancelOutOfRangeTasks (poolSubmit (poolInit 1) 0 c3req) 0 0 5).1 = 1) ∧
    ((cancelOutOfRangeTasks (poolSubmit (poolInit 1) 0 c3req)
        0 0 5).2.rejected.map Prod.fst = [0]) := by
  have hq : (poolSubmit (poolInit 1) 0 c3req).taskQueue = [⟨0, c3req⟩] := rfl
  have hrej : (poolSubmit (poolInit 1) 0 c3req).rejected = [] := rfl
  have hout : taskOutOfRange 0 0 5 ⟨0, c3req⟩ = true := by
    simp only [taskOutOfRange, c3req, distGT, Bool.or_eq_true,
      decide_eq_true_eq]
    norm_num
  have hs := cancelOutOfRange_spec (poolSubmit (poolInit 1) 0 c3req) 0 0 5
  refine ⟨rfl, rfl, ?_, ?_⟩
  · rw [hs.1, hq, List.filter_cons, hout]
    rfl
  · rw [hs.2.2.1, hq, hrej, List.filter_cons, hout]
    rfl

/-- C3 witness: the amended theorem applied to the one-worker pool with an
empty queue (count zero, and an unmatched result settles nothing). -/
theorem c3_witness :
    (cancelOutOfRangeTasks (poolInit 1) 0 0 5).1 =
      ((poolInit 1).taskQueue.filter (taskOutOfRange 0 0 5)).length ∧
    (handleWorkerMessage (cancelOutOfRangeTasks (poolInit 1) 0 0 5).2
        (generateChunkGeometryRun zeroOracle none c5req)).resolved =
      (cancelOutOfRangeTasks (poolInit 1) 0 0 5).2.resolved := by
  have h := c3_cancel_out_of_range (poolInit 1) 0 0 5
  refine ⟨h.1.1, ?_⟩
  refine (h.2 (generateChunkGeometryRun zeroOracle none c5req) ?_).1
  intro t ht
  have hq : (cancelOutOfRangeTasks (poolInit 1) 0 0 5).2.taskQueue = [] := rfl
  rw [hq] at ht
  exact absurd ht (List.not_mem_nil t)

/-! ## Claim C4 -/

theorem cancelGen_eq (s : CSM) (x z : ℤ) :
    csmCancelGeneratingChunk s x z =
      (match lookupKV s.chunks (getChunkKey x z) with
       | none => s
       | some chunk =>
         if chunk.state = .generating then
           { s with
               chunks := mapSetKV s.chunks (getChunkKey x z)
                 { chunk with state := .removing }
               generatingChunks := mapDelKV s.generatingChunks
                 (getChunkKey x z) }
         else s) := rfl

theorem cancelGen_fields (s : CSM) (x z : ℤ) :
    (csmCancelGeneratingChunk s x z).pendingChunks = s.pendingChunks ∧
    (csmCancelGeneratingChunk s x z).readyChunks = s.readyChunks ∧
    (csmCancelGeneratingChunk s x z).renderedChunks = s.renderedChunks ∧
    (csmCancelGeneratingChunk s x z).centerX = s.centerX ∧
    (csmCancelGeneratingChunk s x z).centerZ = s.centerZ ∧
    (csmCancelGeneratingChunk s x z).renderRadius = s.renderRadius := by
  rw [cancelGen_eq]
  cases h : lookupKV s.chunks (getChunkKey x z) with
  | none => exact ⟨rfl, rfl, rfl, rfl, rfl, rfl⟩
  | some c =>
      dsimp only
      split <;> exact ⟨rfl, rfl, rfl, rfl, rfl, rfl⟩

theorem cancelGen_chunks_ne (s : CSM) (x z : ℤ) (k : ℤ × ℤ)
    (hk : k ≠ getChunkKey x z) :
    lookupKV (csmCancelGeneratingChunk s x z).chunks k =
      lookupKV s.chunks k := by
  rw [cancelGen_eq]
  cases h : lookupKV s.chunks (getChunkKey x z) with
  | none => rfl
  | some c =>
      dsimp only
      split
      · rw [lookupKV_mapSetKV, if_neg hk]
      · rfl

theorem cancelGen_entry (s : CSM) (x z : ℤ) (p : (ℤ × ℤ) × ChunkInfoM)
    (hp : p ∈ (csmCancelGeneratingChunk s x z).chunks)
    (hne : p.1 ≠ getChunkKey x z) : p ∈ s.chunks := by
  rw [cancelGen_eq] at hp
  cases h : lookupKV s.chunks (getChunkKey x z) with
  | none =>
      rw [h] at hp
      exact hp
  | some c =>
      rw [h] at hp
      dsimp only at hp
      by_cases hst : c.state = .generating
      · rw [if_pos hst] at hp
        simp only [mapSetKV] at hp
        split at hp
        · obtain ⟨q, hq, hqe⟩ := List.mem_map.mp hp
          by_cases hqk : q.1 = getChunkKey x z
          · rw [if_pos hqk] at hqe
            exact absurd (by rw [← hqe]) hne
          · rw [if_neg hqk] at hqe
            rw [← hqe]
            exact hq
        · rcases List.mem_append.mp hp with hmem | hmem
          · exact hmem
          · simp only [List.mem_singleton] at hmem
            exact absurd (by rw [hmem]) hne
      · rw [if_neg hst] at hp
        exact hp

theorem cancelGen_gen_none (s : CSM) (x z : ℤ) (k : ℤ × ℤ)
    (h : lookupKV s.generatingChunks k = none) :
    lookupKV (csmCancelGeneratingChunk s x z).generatingChunks k = none := by
  rw [cancelGen_eq]
  cases hc : lookupKV s.chunks (getChunkKey x z) with
  | none => exact h
  | some c =>
      dsimp only
      split
      · rw [lookupKV_mapDelKV]
        split
        · rfl
        · exact h
      · exact h

theorem cancelGen_cancels (s : CSM) (x z : ℤ) (c : ChunkInfoM)
    (hc : lookupKV s.chunks (getChunkKey x z) = some c)
    (hst : c.state = .generating) :
    lookupKV (csmCancelGeneratingChunk s x z).generatingChunks
      (getChunkKey x z) = none := by
  rw [cancelGen_eq, hc]
  dsimp only
  rw [if_pos hst, lookupKV_mapDelKV, if_pos rfl]

/-- The first cleanup loop (cancellation pass) as a fold. -/
def cancelFold (s : CSM) (keys : List (ℤ × ℤ)) : CSM :=
  keys.foldl (fun acc k => csmCancelGeneratingChunk acc k.1 k.2) s

theorem cancelFold_fields (s : CSM) (keys : List (ℤ × ℤ)) :
    (cancelFold s keys).pendingChunks = s.pendingChunks ∧
    (cancelFold s keys).readyChunks = s.readyChunks ∧
    (cancelFold s keys).renderedChunks = s.renderedChunks ∧
    (cancelFold s keys).centerX = s.centerX ∧
    (cancelFold s keys).centerZ = s.centerZ ∧
    (cancelFold s keys).renderRadius = s.renderRadius := by
  induction keys generalizing s with
  | nil => exact ⟨rfl, rfl, rfl, rfl, rfl, rfl⟩
  | cons a rest ih =>
      have h1 := cancelGen_fields s a.1 a.2
      have h2 := ih (csmCancelGeneratingChunk s a.1 a.2)
      unfold cancelFold at h2 ⊢
      rw [List.foldl_cons]
      refine ⟨?_, ?_, ?_, ?_, ?_, ?_⟩
      · rw [h2.1, h1.1]
      · rw [h2.2.1, h1.2.1]
      · rw [h2.2.2.1, h1.2.2.1]
      · rw [h2.2.2.2.1, h1.2.2.2.1]
      · rw [h2.2.2.2.2.1, h1.2.2.2.2.1]
      · rw [h2.2.2.2.2.2, h1.2.2.2.2.2]

theorem cancelFold_gen_none (s : CSM) (keys : List (ℤ × ℤ)) (k : ℤ × ℤ)
    (h : lookupKV s.generatingChunks k = none) :
    lookupKV (cancelFold s keys).generatingChunks k = none := by
  induction keys generalizing s with
  | nil => exact h
  | cons a rest ih =>
      unfold cancelFold
      rw [List.foldl_cons]
      exact ih _ (cancelGen_gen_none s a.1 a.2 k h)

theorem cancelFold_cancels (s : CSM) (keys : List (ℤ × ℤ)) (k : ℤ × ℤ)
    (c : ChunkInfoM) (hk : k ∈ keys) (hc : lookupKV s.chunks k = some c)
    (hst : c.state = .generating) :
    lookupKV (cancelFold s keys).generatingChunks k = none := by
  induction keys generalizing s with
  | nil => exact absurd hk (List.not_mem_nil k)
  | cons a rest ih =>
      unfold cancelFold
      rw [List.foldl_cons]
      by_cases hak : k = (a.1, a.2)
      · have hc2 : lookupKV s.chunks (getChunkKey a.1 a.2) = some c := by
          rw [show getChunkKey a.1 a.2 = k from hak.symm]
          exact hc
        have := cancelGen_cancels s a.1 a.2 c hc2 hst
        rw [show getChunkKey a.1 a.2 = k from hak.symm] at this
        exact cancelFold_gen_none _ rest k this
      · have hka : k ≠ getChunkKey a.1 a.2 := hak
        have hc2 : lookupKV (csmCancelGeneratingChunk s a.1 a.2).chunks k =
            some c := by
          rw [cancelGen_chunks_ne s a.1 a.2 k hka]
          exact hc
        have hkr : k ∈ rest := by
          rcases List.mem_cons.mp hk with h1 | h1
          · exact absurd (by rw [h1]) hak
          · exact h1
        apply ih <;> first | exact hkr | exact hc2

theorem cancelFold_entry (s : CSM) (keys : List (ℤ × ℤ))
    (p : (ℤ × ℤ) × ChunkInfoM) (hp : p ∈ (cancelFold s keys).chunks)
    (hnk : p.1 ∉ keys) : p ∈ s.chunks := by
  induction keys generalizing s with
  | nil => exact hp
  | cons a rest ih =>
      unfold cancelFold at hp
      rw [List.foldl_cons] at hp
      have h1 : p ∈ (csmCancelGeneratingChunk s a.1 a.2).chunks :=
        ih _ hp (fun hr => hnk (List.mem_cons_of_mem _ hr))
      exact cancelGen_entry s a.1 a.2 p h1
        (fun he => hnk (by rw [he]; exact List.mem_cons_self _ _))

theorem deleteKey_eq (s : CSM) (key : ℤ × ℤ) :
    csmDeleteKey s key =
      (match lookupKV s.chunks key with
       | none => s
       | some chunk =>
          let s1 := updateChunkStateSet s key (some chunk.state) none
          { s1 with chunks := mapDelKV s1.chunks key }) := rfl

theorem deleteKey_chunks_lookup (s : CSM) (key k : ℤ × ℤ) :
    lookupKV (csmDeleteKey s key).chunks k =
      (if k = key then none else lookupKV s.chunks k) := by
  rw [deleteKey_eq]
  cases h : lookupKV s.chunks key with
  | none =>
      dsimp only
      by_cases hk : k = key
      · subst hk
        rw [if_pos rfl]
        exact h
      · rw [if_neg hk]
  | some c =>
      dsimp only
      rw [lookupKV_mapDelKV, (ucss_fields s key (some c.state) none).1]

theorem deleteKey_gen_none (s : CSM) (key k : ℤ × ℤ)
    (h : lookupKV s.generatingChunks k = none) :
    lookupKV (csmDeleteKey s key).generatingChunks k = none := by
  rw [deleteKey_eq]
  cases hc : lookupKV s.chunks key with
  | none => exact h
  | some c =>
      dsimp only
      rw [lookup_ucss_generating]
      split
      · rfl
      · exact h

theorem deleteKey_entry (s : CSM) (key : ℤ × ℤ) (p : (ℤ × ℤ) × ChunkInfoM)
    (hp : p ∈ (csmDeleteKey s key).chunks) : p ∈ s.chunks ∧ p.1 ≠ key := by
  rw [deleteKey_eq] at hp
  cases hc : lookupKV s.chunks key with
  | none =>
      rw [hc] at hp
      refine ⟨hp, ?_⟩
      rw [lookupKV_eq_none_iff] at hc
      exact hc p hp
  | some c =>
      rw [hc] at hp
      dsimp only at hp
      rw [(ucss_fields s key (some c.state) none).1] at hp
      unfold mapDelKV at hp
      have hm := List.mem_filter.mp hp
      exact ⟨hm.1, by simpa using hm.2⟩

/-- The second cleanup loop (deletion pass) as a fold of the `removeChunk`
body. -/
def deleteFold (s : CSM) (keys : List (ℤ × ℤ)) : CSM :=
  keys.foldl csmDeleteKey s

theorem deleteFold_chunks_lookup (s : CSM) (keys : List (ℤ × ℤ))
    (k : ℤ × ℤ) :
    lookupKV (deleteFold s keys).chunks k =
      (if k ∈ keys then none else lookupKV s.chunks k) := by
  induction keys generalizing s with
  | nil => simp [deleteFold]
  | cons a rest ih =>
      unfold deleteFold
      rw [List.foldl_cons]
      have := ih (csmDeleteKey s a)
      unfold deleteFold at this
      rw [this, deleteKey_chunks_lookup]
      by_cases hkr : k ∈ rest
      · simp [hkr]
      · by_cases hka : k = a
        · simp [hka, hkr]
        · simp [hka, hkr]

theorem deleteFold_gen_none (s : CSM) (keys : List (ℤ × ℤ)) (k : ℤ × ℤ)
    (h : lookupKV s.generatingChunks k = none) :
    lookupKV (deleteFold s keys).generatingChunks k = none := by
  induction keys generalizing s with
  | nil => exact h
  | cons a rest ih =>
      unfold deleteFold
      rw [List.foldl_cons]
      exact ih _ (deleteKey_gen_none s a k h)

theorem deleteFold_entry (s : CSM) (keys : List (ℤ × ℤ))
    (p : (ℤ × ℤ) × ChunkInfoM) (hp : p ∈ (deleteFold s keys).chunks) :
    p ∈ s.chunks ∧ p.1 ∉ keys := by
  induction keys generalizing s with
  | nil => exact ⟨hp, List.not_mem_nil _⟩
  | cons a rest ih =>
      unfold deleteFold at hp
      rw [List.foldl_cons] at hp
      have h1 := ih (csmDeleteKey s a) hp
      have h2 := deleteKey_entry s a p h1.1
      refine ⟨h2.1, ?_⟩
      intro hmem
      rcases List.mem_cons.mp hmem with he | he
      · exact h2.2 he
      · exact h1.2 he

theorem updatePriorities_lookup (t : CSM) (k : ℤ × ℤ) :
    lookupKV (csmUpdatePriorities t).chunks k =
      (lookupKV t.chunks k).map (fun c =>
        { c with priorityD2 := calcD2 t.centerX t.centerZ c.x c.z }) := by
  unfold csmUpdatePriorities
  exact lookupKV_entry_map t.chunks
    (fun c => { c with priorityD2 := calcD2 t.centerX t.centerZ c.x c.z }) k

theorem updatePriorities_entry (t : CSM) (p : (ℤ × ℤ) × ChunkInfoM)
    (hp : p ∈ (csmUpdatePriorities t).chunks) :
    p.2.priorityD2 = calcD2 t.centerX t.centerZ p.2.x p.2.z := by
  unfold csmUpdatePriorities at hp
  obtain ⟨q, hq, rfl⟩ := List.mem_map.mp hp
  rfl

/-- C4: after `updateCenter(cx, cz)` no tracked chunk lies farther than
`renderRadius + 1` from the new center; every surviving chunk's priority has
been recomputed from its distance to the new center (the stored squared
distance, whose induced real priority `max 0 (1000 - 10·√d2)` is antitone in
the distance, third conjunct); and every evicted chunk that was `GENERATING`
has been removed from the generating collection as well as from tracking. -/
theorem c4_updateCenter_correct (s : CSM) (cx cz : ℤ) :
    (∀ p ∈ (csmUpdateCenter s cx cz).chunks,
        Real.sqrt (((p.2.x - cx) * (p.2.x - cx) +
          (p.2.z - cz) * (p.2.z - cz) : ℤ) : ℝ) ≤ (s.renderRadius : ℝ) + 1) ∧
    (∀ p ∈ (csmUpdateCenter s cx cz).chunks,
        p.2.priorityD2 = calcD2 cx cz p.2.x p.2.z) ∧
    (∀ d2 d2' : ℚ, 0 ≤ d2 → d2 ≤ d2' →
        max 0 (1000 - 10 * Real.sqrt (d2' : ℝ)) ≤
          max 0 (1000 - 10 * Real.sqrt (d2 : ℝ))) ∧
    (∀ (k : ℤ × ℤ) (c : ChunkInfoM), lookupKV s.chunks k = some c →
        c.state = .generating →
        distGT (c.x - cx) (c.z - cz) (s.renderRadius + 1) = true →
        lookupKV (csmUpdateCenter s cx cz).generatingChunks k = none ∧
        lookupKV (csmUpdateCenter s cx cz).chunks k = none) := by
  have s1eq : csmUpdateCenter s cx cz =
      deleteFold
        (cancelFold (csmUpdatePriorities { s with centerX := cx, centerZ := cz })
          (((csmUpdatePriorities
              { s with centerX := cx, centerZ := cz }).chunks.filter
            (fun p => distGT (p.2.x - cx) (p.2.z - cz) (s.renderRadius + 1))).map
              (fun p => p.1)))
        (((csmUpdatePriorities
            { s with centerX := cx, centerZ := cz }).chunks.filter
          (fun p => distGT (p.2.x - cx) (p.2.z - cz) (s.renderRadius + 1))).map
            (fun p => p.1)) := rfl
  set s1 := csmUpdatePriorities { s with centerX := cx, centerZ := cz } with hs1
  set keys := ((s1.chunks.filter
      (fun p => distGT (p.2.x - cx) (p.2.z - cz) (s.renderRadius + 1))).map
        (fun p => p.1)) with hkeys
  have hchain : ∀ p ∈ (csmUpdateCenter s cx cz).chunks,
      p ∈ s1.chunks ∧ p.1 ∉ keys := by
    intro p hp
    rw [s1eq] at hp
    have h1 := deleteFold_entry _ _ _ hp
    exact ⟨cancelFold_entry _ _ _ h1.1 h1.2, h1.2⟩
  refine ⟨?_, ?_, ?_, ?_⟩
  · intro p hp
    obtain ⟨hmem, hnk⟩ := hchain p hp
    have hout : distGT (p.2.x - cx) (p.2.z - cz) (s.renderRadius + 1) = false := by
      cases hd : distGT (p.2.x - cx) (p.2.z - cz) (s.renderRadius + 1) with
      | false => rfl
      | true =>
          exact absurd (List.mem_map.mpr ⟨p, List.mem_filter.mpr ⟨hmem, hd⟩, rfl⟩)
            hnk
    have hns : ¬ (((s.renderRadius + 1 : ℚ) : ℝ) <
        Real.sqrt (((p.2.x - cx) * (p.2.x - cx) +
          (p.2.z - cz) * (p.2.z - cz) : ℤ) : ℝ)) := by
      rw [← distGT_iff_sqrt]
      rw [hout]
      simp
    rw [not_lt] at hns
    calc Real.sqrt _ ≤ ((s.renderRadius + 1 : ℚ) : ℝ) := hns
      _ = (s.renderRadius : ℝ) + 1 := by push_cast; ring
  · intro p hp
    obtain ⟨hmem, _⟩ := hchain p hp
    have := updatePriorities_entry _ p hmem
    simpa using this
  · intro d2 d2' h0 hle
    have hsq : Real.sqrt (d2 : ℝ) ≤ Real.sqrt (d2' : ℝ) :=
      Real.sqrt_le_sqrt (by exact_mod_cast hle)
    have hlin : (1000 : ℝ) - 10 * Real.sqrt (d2' : ℝ) ≤
        1000 - 10 * Real.sqrt (d2 : ℝ) := by linarith
    exact max_le_max (le_refl 0) hlin
  · intro k c hc hst hout
    have hc1 : lookupKV s1.chunks k =
        some { c with priorityD2 := calcD2 cx cz c.x c.z } := by
      rw [hs1, updatePriorities_lookup]
      rw [show ({ s with centerX := cx, centerZ := cz } : CSM).chunks
        = s.chunks from rfl] at *
      rw [hc]
      rfl
    have hkmem : k ∈ keys := by
      rw [hkeys]
      refine List.mem_map.mpr ⟨(k, { c with priorityD2 := calcD2 cx cz c.x c.z }),
        List.mem_filter.mpr ⟨lookupKV_eq_some_mem hc1, ?_⟩, rfl⟩
      exact hout
    constructor
    · rw [s1eq]
      refine deleteFold_gen_none _ _ _ ?_
      refine cancelFold_cancels _ _ k
        { c with priorityD2 := calcD2 cx cz c.x c.z } hkmem hc1 ?_
      exact hst
    · rw [s1eq, deleteFold_chunks_lookup, if_pos hkmem]

/-- Manager with one pending chunk at the origin (C4 witness input). -/
def c4s : CSM := csmAddChunk csmInit 0 0 0 .pending

/-- Manager with a generating chunk at (0,0) and a pending chunk at
(100,100) (C4 witness input for the eviction part). -/
def c4sGen : CSM :=
  csmAddChunk
    (csmSetChunkState (csmAddChunk csmInit 0 0 0 .pending) 1 0 0 .generating
      (some (.str "g")))
    2 100 100 .pending

theorem c4s_chunks_eval :
    (csmUpdateCenter c4s 0 0).chunks =
      [((0, 0),
        { key := (0, 0), x := 0, z := 0, state := .pending,
          generationId := none, geometryData := none,
          priorityD2 := calcD2 0 0 0 0, lastAccessed := 0 })] := by
  have hfilter : distGT ((0 : ℤ) - 0) ((0 : ℤ) - 0) ((6 : ℚ) + 1) = false := by
    simp only [distGT, Bool.or_eq_false_iff, decide_eq_false_iff_not]
    norm_num
  rw [show csmUpdateCenter c4s 0 0 =
    deleteFold
      (cancelFold (csmUpdatePriorities { c4s with centerX := 0, centerZ := 0 })
        (((csmUpdatePriorities
            { c4s with centerX := 0, centerZ := 0 }).chunks.filter
          (fun p => distGT (p.2.x - 0) (p.2.z - 0) (c4s.renderRadius + 1))).map
            (fun p => p.1)))
      (((csmUpdatePriorities
          { c4s with centerX := 0, centerZ := 0 }).chunks.filter
        (fun p => distGT (p.2.x - 0) (p.2.z - 0) (c4s.renderRadius + 1))).map
          (fun p => p.1)) from rfl]
  rw [show (csmUpdatePriorities { c4s with centerX := 0, centerZ := 0 }).chunks
    = [((0, 0),
        { key := (0, 0), x := 0, z := 0, state := .pending,
          generationId := none, geometryData := none,
          priorityD2 := calcD2 0 0 0 0, lastAccessed := 0 })] from rfl]
  rw [List.filter_cons]
  rw [show (distGT
      ((((0 : ℤ), (0 : ℤ)),
        ({ key := (0, 0), x := 0, z := 0, state := .pending,
           generationId := none, geometryData := none,
           priorityD2 := calcD2 0 0 0 0,
           lastAccessed := 0 } : ChunkInfoM)).2.x - 0)
      ((((0 : ℤ), (0 : ℤ)),
        ({ key := (0, 0), x := 0, z := 0, state := .pending,
           generationId := none, geometryData := none,
           priorityD2 := calcD2 0 0 0 0,
           lastAccessed := 0 } : ChunkInfoM)).2.z - 0)
      (c4s.renderRadius + 1)) = false from hfilter]
  rfl

/-- The surviving tracked entry of `csmUpdateCenter c4s 0 0`. -/
def c4p : (ℤ × ℤ) × ChunkInfoM :=
  ((0, 0),
    { key := (0, 0), x := 0, z := 0, state := .pending, generationId := none,
      geometryData := none, priorityD2 := calcD2 0 0 0 0, lastAccessed := 0 })

/-- The generating chunk entry of `c4sGen` at (0,0). -/
def c4cGen : ChunkInfoM :=
  { key := (0, 0), x := 0, z := 0, state := .generating,
    generationId := some "g", geometryData := none,
    priorityD2 := calcD2 0 0 0 0, lastAccessed := 1 }

/-- C4 witness: the theorem applied to two concrete runs — a surviving chunk
at the center satisfies the distance bound with recomputed priority, the
priority map is antitone between distances 1 and 4, and the far generating
chunk (0,0) is removed from both the generating collection and tracking by
`updateCenter(100,100)`. -/
theorem c4_witness :
    (Real.sqrt (((c4p.2.x - 0) * (c4p.2.x - 0) +
      (c4p.2.z - 0) * (c4p.2.z - 0) : ℤ) : ℝ) ≤ (c4s.renderRadius : ℝ) + 1) ∧
    c4p.2.priorityD2 = calcD2 0 0 c4p.2.x c4p.2.z ∧
    (max 0 (1000 - 10 * Real.sqrt ((4 : ℚ) : ℝ)) ≤
      max 0 (1000 - 10 * Real.sqrt ((1 : ℚ) : ℝ))) ∧
    (lookupKV (csmUpdateCenter c4sGen 100 100).generatingChunks (0, 0) = none ∧
     lookupKV (csmUpdateCenter c4sGen 100 100).chunks (0, 0) = none) := by
  have h1 := c4_updateCenter_correct c4s 0 0
  have h2 := c4_updateCenter_correct c4sGen 100 100
  refine ⟨?_, ?_, ?_, ?_⟩
  · exact h1.1 c4p (by rw [c4s_chunks_eval]; exact List.mem_singleton_self _)
  · exact h1.2.1 c4p (by rw [c4s_chunks_eval]; exact List.mem_singleton_self _)
  · exact h1.2.2.1 1 4 (by norm_num) (by norm_num)
  · refine h2.2.2.2 (0, 0) c4cGen rfl rfl ?_
    show distGT ((0 : ℤ) - 100) ((0 : ℤ) - 100) ((6 : ℚ) + 1) = true
    simp only [distGT, Bool.or_eq_true, decide_eq_true_eq]
    norm_num

/-! ## Claims C2 and C7: the collection-soundness invariant -/

/-- Soundness of the state-indexed collections: every member of
`pendingChunks`/`readyChunks`/`renderedChunks` is a tracked chunk in the
matching state, and every binding of `generatingChunks` is a tracked chunk
in state `GENERATING` carrying that generation id. -/
structure CSMInv (s : CSM) : Prop where
  pendingState : ∀ k ∈ s.pendingChunks,
    ∃ c, lookupKV s.chunks k = some c ∧ c.state = ChunkState.pending
  genState : ∀ (k : ℤ × ℤ) (g : String),
    lookupKV s.generatingChunks k = some g →
    ∃ c, lookupKV s.chunks k = some c ∧ c.state = ChunkState.generating ∧
      c.generationId = some g
  readyState : ∀ k ∈ s.readyChunks,
    ∃ c, lookupKV s.chunks k = some c ∧ c.state = ChunkState.ready
  renderedState : ∀ k ∈ s.renderedChunks,
    ∃ c, lookupKV s.chunks k = some c ∧ c.state = ChunkState.rendered

theorem inv_init : CSMInv csmInit := by
  refine ⟨?_, ?_, ?_, ?_⟩ <;> intro k hk <;> simp [csmInit, lookupKV] at *

theorem setChunkState_eq (s : CSM) (now : ℚ) (x z : ℤ) (ns : ChunkState)
    (d : Option SCData) :
    csmSetChunkState s now x z ns d =
      (match lookupKV s.chunks (getChunkKey x z) with
       | none => s
       | some chunk =>
          let chunk1 := { chunk with state := ns, lastAccessed := now }
          let pr :=
            match ns, d with
            | .generating, some (.str g) =>
                ({ chunk1 with generationId := some g },
                  mapSetKV s.generatingChunks (getChunkKey x z) g)
            | .ready, some d2 =>
                (if d2.truthy then { chunk1 with geometryData := some d2 }
                 else chunk1,
                  s.generatingChunks)
            | _, _ => (chunk1, s.generatingChunks)
          updateChunkStateSet
            { s with chunks := mapSetKV s.chunks (getChunkKey x z) pr.1,
                     generatingChunks := pr.2 }
            (getChunkKey x z) (some chunk.state) (some ns)) := rfl

theorem inv_update_helper (s : CSM) (key : ℤ × ℤ) (old : ChunkState)
    (c2 : ChunkInfoM) (ns : ChunkState) (hinv : CSMInv s)
    (hold : ∀ c', lookupKV s.chunks key = some c' → c'.state = old)
    (hc2 : c2.state = ns) :
    CSMInv (updateChunkStateSet
      { s with chunks := mapSetKV s.chunks key c2 } key
      (some old) (some ns)) := by
  have hch : ∀ k' : ℤ × ℤ,
      lookupKV (updateChunkStateSet
        { s with chunks := mapSetKV s.chunks key c2 } key
        (some old) (some ns)).chunks k' =
      lookupKV (mapSetKV s.chunks key c2) k' := by
    intro k'
    rw [(ucss_fields _ _ _ _).1]
  refine ⟨?_, ?_, ?_, ?_⟩
  · intro k hk
    rw [mem_ucss_pending] at hk
    rcases hk with ⟨hmem, hno⟩ | ⟨hns, hke⟩
    · obtain ⟨cd, hcd, hcds⟩ := hinv.pendingState k hmem
      by_cases hkk : k = key
      · subst hkk
        have h1 : old = ChunkState.pending := by rw [← hold cd hcd, hcds]
        exact absurd ⟨by rw [h1], rfl⟩ hno
      · refine ⟨cd, ?_, hcds⟩
        rw [hch, lookupKV_mapSetKV, if_neg hkk]
        exact hcd
    · have hns2 : ns = ChunkState.pending := by
        cases hns
        rfl
      subst hke
      refine ⟨c2, ?_, by rw [hc2, hns2]⟩
      rw [hch, lookupKV_mapSetKV, if_pos rfl]
  · intro k g hg
    rw [lookup_ucss_generating] at hg
    by_cases hcond : ((some old : Option ChunkState) =
        some ChunkState.generating ∧ k = key)
    · rw [if_pos hcond] at hg
      exact absurd hg (by simp)
    · rw [if_neg hcond] at hg
      obtain ⟨cd, hcd, hcds, hcdid⟩ := hinv.genState k g hg
      by_cases hkk : k = key
      · subst hkk
        have h1 : old = ChunkState.generating := by rw [← hold cd hcd, hcds]
        exact absurd ⟨by rw [h1], rfl⟩ hcond
      · refine ⟨cd, ?_, hcds, hcdid⟩
        rw [hch, lookupKV_mapSetKV, if_neg hkk]
        exact hcd
  · intro k hk
    rw [mem_ucss_ready] at hk
    rcases hk with ⟨hmem, hno⟩ | ⟨hns, hke⟩
    · obtain ⟨cd, hcd, hcds⟩ := hinv.readyState k hmem
      by_cases hkk : k = key
      · subst hkk
        have h1 : old = ChunkState.ready := by rw [← hold cd hcd, hcds]
        exact absurd ⟨by rw [h1], rfl⟩ hno
      · refine ⟨cd, ?_, hcds⟩
        rw [hch, lookupKV_mapSetKV, if_neg hkk]
        exact hcd
    · have hns2 : ns = ChunkState.ready := by
        cases hns
        rfl
      subst hke
      refine ⟨c2, ?_, by rw [hc2, hns2]⟩
      rw [hch, lookupKV_mapSetKV, if_pos rfl]
  · intro k hk
    rw [mem_ucss_rendered] at hk
    rcases hk with ⟨hmem, hno⟩ | ⟨hns, hke⟩
    · obtain ⟨cd, hcd, hcds⟩ := hinv.renderedState k hmem
      by_cases hkk : k = key
      · subst hkk
        have h1 : old = ChunkState.rendered := by rw [← hold cd hcd, hcds]
        exact absurd ⟨by rw [h1], rfl⟩ hno
      · refine ⟨cd, ?_, hcds⟩
        rw [hch, lookupKV_mapSetKV, if_neg hkk]
        exact hcd
    · have hns2 : ns = ChunkState.rendered := by
        cases hns
        rfl
      subst hke
      refine ⟨c2, ?_, by rw [hc2, hns2]⟩
      rw [hch, lookupKV_mapSetKV, if_pos rfl]

theorem inv_update_helper_gen (s : CSM) (key : ℤ × ℤ) (old : ChunkState)
    (c2 : ChunkInfoM) (g : String) (hinv : CSMInv s)
    (hold : ∀ c', lookupKV s.chunks key = some c' → c'.state = old)
    (hc2 : c2.state = ChunkState.generating)
    (hid : c2.generationId = some g) :
    CSMInv (updateChunkStateSet
      { s with chunks := mapSetKV s.chunks key c2,
               generatingChunks := mapSetKV s.generatingChunks key g } key
      (some old) (some .generating)) := by
  have hch : ∀ k' : ℤ × ℤ,
      lookupKV (updateChunkStateSet
        { s with chunks := mapSetKV s.chunks key c2,
                 generatingChunks := mapSetKV s.generatingChunks key g } key
        (some old) (some .generating)).chunks k' =
      lookupKV (mapSetKV s.chunks key c2) k' := by
    intro k'
    rw [(ucss_fields _ _ _ _).1]
  refine ⟨?_, ?_, ?_, ?_⟩
  · intro k hk
    rw [mem_ucss_pending] at hk
    rcases hk with ⟨hmem, hno⟩ | ⟨hns, hke⟩
    · obtain ⟨cd, hcd, hcds⟩ := hinv.pendingState k hmem
      by_cases hkk : k = key
      · subst hkk
        have h1 : old = ChunkState.pending := by rw [← hold cd hcd, hcds]
        exact absurd ⟨by rw [h1], rfl⟩ hno
      · refine ⟨cd, ?_, hcds⟩
        rw [hch, lookupKV_mapSetKV, if_neg hkk]
        exact hcd
    · cases hns
  · intro k g2 hg
    rw [lookup_ucss_generating] at hg
    by_cases hcond : ((some old : Option ChunkState) =
        some ChunkState.generating ∧ k = key)
    · rw [if_pos hcond] at hg
      exact absurd hg (by simp)
    · rw [if_neg hcond] at hg
      dsimp only at hg
      rw [lookupKV_mapSetKV] at hg
      by_cases hkk : k = key
      · rw [if_pos hkk] at hg
        subst hkk
        refine ⟨c2, ?_, hc2, ?_⟩
        · rw [hch, lookupKV_mapSetKV, if_pos rfl]
        · rw [hid]
          cases hg
          rfl
      · rw [if_neg hkk] at hg
        obtain ⟨cd, hcd, hcds, hcdid⟩ := hinv.genState k g2 hg
        refine ⟨cd, ?_, hcds, hcdid⟩
        rw [hch, lookupKV_mapSetKV, if_neg hkk]
        exact hcd
  · intro k hk
    rw [mem_ucss_ready] at hk
    rcases hk with ⟨hmem, hno⟩ | ⟨hns, hke⟩
    · obtain ⟨cd, hcd, hcds⟩ := hinv.readyState k hmem
      by_cases hkk : k = key
      · subst hkk
        have h1 : old = ChunkState.ready := by rw [← hold cd hcd, hcds]
        exact absurd ⟨by rw [h1], rfl⟩ hno
      · refine ⟨cd, ?_, hcds⟩
        rw [hch, lookupKV_mapSetKV, if_neg hkk]
        exact hcd
    · cases hns
  · intro k hk
    rw [mem_ucss_rendered] at hk
    rcases hk with ⟨hmem, hno⟩ | ⟨hns, hke⟩
    · obtain ⟨cd, hcd, hcds⟩ := hinv.renderedState k hmem
      by_cases hkk : k = key
      · subst hkk
        have h1 : old = ChunkState.rendered := by rw [← hold cd hcd, hcds]
        exact absurd ⟨by rw [h1], rfl⟩ hno
      · refine ⟨cd, ?_, hcds⟩
        rw [hch, lookupKV_mapSetKV, if_neg hkk]
        exact hcd
    · cases hns

theorem inv_delete_helper (s : CSM) (key : ℤ × ℤ) (c : ChunkInfoM)
    (hinv : CSMInv s) (hc : lookupKV s.chunks key = some c) :
    CSMInv { (updateChunkStateSet s key (some c.state) none) with
             chunks := mapDelKV
               (updateChunkStateSet s key (some c.state) none).chunks key } := by
  have hch : ∀ k' : ℤ × ℤ,
      lookupKV (mapDelKV
        (updateChunkStateSet s key (some c.state) none).chunks key) k' =
      (if k' = key then none else lookupKV s.chunks k') := by
    intro k'
    rw [lookupKV_mapDelKV, (ucss_fields _ _ _ _).1]
  refine ⟨?_, ?_, ?_, ?_⟩
  · intro k hk
    dsimp only at hk
    rw [mem_ucss_pending] at hk
    rcases hk with ⟨hmem, hno⟩ | ⟨hns, _⟩
    · obtain ⟨cd, hcd, hcds⟩ := hinv.pendingState k hmem
      by_cases hkk : k = key
      · subst hkk
        rw [hcd] at hc
        cases hc
        exact absurd ⟨by rw [hcds], rfl⟩ hno
      · refine ⟨cd, ?_, hcds⟩
        dsimp only
        rw [hch, if_neg hkk]
        exact hcd
    · cases hns
  · intro k g hg
    dsimp only at hg
    rw [lookup_ucss_generating] at hg
    by_cases hcond : ((some c.state : Option ChunkState) =
        some ChunkState.generating ∧ k = key)
    · rw [if_pos hcond] at hg
      exact absurd hg (by simp)
    · rw [if_neg hcond] at hg
      obtain ⟨cd, hcd, hcds, hcdid⟩ := hinv.genState k g hg
      by_cases hkk : k = key
      · subst hkk
        rw [hcd] at hc
        cases hc
        exact absurd ⟨by rw [hcds], rfl⟩ hcond
      · refine ⟨cd, ?_, hcds, hcdid⟩
        dsimp only
        rw [hch, if_neg hkk]
        exact hcd
  · intro k hk
    dsimp only at hk
    rw [mem_ucss_ready] at hk
    rcases hk with ⟨hmem, hno⟩ | ⟨hns, _⟩
    · obtain ⟨cd, hcd, hcds⟩ := hinv.readyState k hmem
      by_cases hkk : k = key
      · subst hkk
        rw [hcd] at hc
        cases hc
        exact absurd ⟨by rw [hcds], rfl⟩ hno
      · refine ⟨cd, ?_, hcds⟩
        dsimp only
        rw [hch, if_neg hkk]
        exact hcd
    · cases hns
  · intro k hk
    dsimp only at hk
    rw [mem_ucss_rendered] at hk
    rcases hk with ⟨hmem, hno⟩ | ⟨hns, _⟩
    · obtain ⟨cd, hcd, hcds⟩ := hinv.renderedState k hmem
      by_cases hkk : k = key
      · subst hkk
        rw [hcd] at hc
        cases hc
        exact absurd ⟨by rw [hcds], rfl⟩ hno
      · refine ⟨cd, ?_, hcds⟩
        dsimp only
        rw [hch, if_neg hkk]
        exact hcd
    · cases hns

theorem inv_addChunk (s : CSM) (now : ℚ) (x z : ℤ) (st : ChunkState)
    (hinv : CSMInv s) : CSMInv (csmAddChunk s now x z st) := by
  unfold csmAddChunk
  dsimp only
  split
  · exact hinv
  · rename_i hguard
    have hnone : lookupKV s.chunks (getChunkKey x z) = none := by
      cases h : lookupKV s.chunks (getChunkKey x z) with
      | none => rfl
      | some c => rw [h] at hguard; simp at hguard
    exact inv_update_helper s (getChunkKey x z) .pending _ st hinv
      (fun c' hc' => absurd hc' (by rw [hnone]; simp)) rfl

theorem inv_setChunkState (s : CSM) (now : ℚ) (x z : ℤ) (ns : ChunkState)
    (d : Option SCData) (hinv : CSMInv s) :
    CSMInv (csmSetChunkState s now x z ns d) := by
  rw [setChunkState_eq]
  cases hc : lookupKV s.chunks (getChunkKey x z) with
  | none => exact hinv
  | some chunk =>
      dsimp only
      have hold : ∀ c', lookupKV s.chunks (getChunkKey x z) = some c' →
          c'.state = chunk.state := by
        intro c' hc'
        rw [hc] at hc'
        cases hc'
        rfl
      cases ns with
      | pending =>
          cases d with
          | none =>
              exact inv_update_helper s _ chunk.state _ .pending hinv hold rfl
          | some dv =>
              cases dv with
              | str g =>
                  exact inv_update_helper s _ chunk.state _ .pending hinv hold
                    rfl
              | res r =>
                  exact inv_update_helper s _ chunk.state _ .pending hinv hold
                    rfl
      | generating =>
          cases d with
          | none =>
              exact inv_update_helper s _ chunk.state _ .generating hinv hold
                rfl
          | some dv =>
              cases dv with
              | str g =>
                  exact inv_update_helper_gen s _ chunk.state _ g hinv hold rfl
                    rfl
              | res r =>
                  exact inv_update_helper s _ chunk.state _ .generating hinv
                    hold rfl
      | ready =>
          cases d with
          | none =>
              exact inv_update_helper s _ chunk.state _ .ready hinv hold rfl
          | some dv =>
              exact inv_update_helper s _ chunk.state _ .ready hinv hold
                (by by_cases hdv : dv.truthy <;> simp [hdv])
      | rendered =>
          cases d with
          | none =>
              exact inv_update_helper s _ chunk.state _ .rendered hinv hold rfl
          | some dv =>
              cases dv with
              | str g =>
                  exact inv_update_helper s _ chunk.state _ .rendered hinv hold
                    rfl
              | res r =>
                  exact inv_update_helper s _ chunk.state _ .rendered hinv hold
                    rfl
      | removing =>
          cases d with
          | none =>
              exact inv_update_helper s _ chunk.state _ .removing hinv hold rfl
          | some dv =>
              cases dv with
              | str g =>
                  exact inv_update_helper s _ chunk.state _ .removing hinv hold
                    rfl
              | res r =>
                  exact inv_update_helper s _ chunk.state _ .removing hinv hold
                    rfl

theorem inv_deleteKey (s : CSM) (key : ℤ × ℤ) (hinv : CSMInv s) :
    CSMInv (csmDeleteKey s key) := by
  rw [deleteKey_eq]
  cases hc : lookupKV s.chunks key with
  | none => exact hinv
  | some c =>
      dsimp only
      exact inv_delete_helper s key c hinv hc

theorem inv_removeChunk (s : CSM) (x z : ℤ) (hinv : CSMInv s) :
    CSMInv (csmRemoveChunk s x z) := by
  have : csmRemoveChunk s x z = csmDeleteKey s (getChunkKey x z) := rfl
  rw [this]
  exact inv_deleteKey s _ hinv

theorem inv_cancelGen (s : CSM) (x z : ℤ) (hinv : CSMInv s) :
    CSMInv (csmCancelGeneratingChunk s x z) := by
  rw [cancelGen_eq]
  cases hc : lookupKV s.chunks (getChunkKey x z) with
  | none => exact hinv
  | some c =>
      dsimp only
      split
      · rename_i hst
        refine ⟨?_, ?_, ?_, ?_⟩
        · intro k hk
          obtain ⟨cd, hcd, hcds⟩ := hinv.pendingState k hk
          by_cases hkk : k = getChunkKey x z
          · subst hkk
            rw [hcd] at hc
            cases hc
            rw [hcds] at hst
            cases hst
          · refine ⟨cd, ?_, hcds⟩
            dsimp only
            rw [lookupKV_mapSetKV, if_neg hkk]
            exact hcd
        · intro k g hg
          dsimp only at hg
          rw [lookupKV_mapDelKV] at hg
          by_cases hkk : k = getChunkKey x z
          · rw [if_pos hkk] at hg
            cases hg
          · rw [if_neg hkk] at hg
            obtain ⟨cd, hcd, hcds, hcdid⟩ := hinv.genState k g hg
            refine ⟨cd, ?_, hcds, hcdid⟩
            dsimp only
            rw [lookupKV_mapSetKV, if_neg hkk]
            exact hcd
        · intro k hk
          obtain ⟨cd, hcd, hcds⟩ := hinv.readyState k hk
          by_cases hkk : k = getChunkKey x z
          · subst hkk
            rw [hcd] at hc
            cases hc
            rw [hcds] at hst
            cases hst
          · refine ⟨cd, ?_, hcds⟩
            dsimp only
            rw [lookupKV_mapSetKV, if_neg hkk]
            exact hcd
        · intro k hk
          obtain ⟨cd, hcd, hcds⟩ := hinv.renderedState k hk
          by_cases hkk : k = getChunkKey x z
          · subst hkk
            rw [hcd] at hc
            cases hc
            rw [hcds] at hst
            cases hst
          · refine ⟨cd, ?_, hcds⟩
            dsimp only
            rw [lookupKV_mapSetKV, if_neg hkk]
            exact hcd
      · exact hinv

theorem inv_updatePriorities (s : CSM) (hinv : CSMInv s) :
    CSMInv (csmUpdatePriorities s) := by
  refine ⟨?_, ?_, ?_, ?_⟩
  · intro k hk
    obtain ⟨cd, hcd, hcds⟩ := hinv.pendingState k hk
    refine ⟨{ cd with priorityD2 := calcD2 s.centerX s.centerZ cd.x cd.z },
      ?_, hcds⟩
    rw [updatePriorities_lookup, hcd]
    rfl
  · intro k g hg
    obtain ⟨cd, hcd, hcds, hcdid⟩ := hinv.genState k g hg
    refine ⟨{ cd with priorityD2 := calcD2 s.centerX s.centerZ cd.x cd.z },
      ?_, hcds, hcdid⟩
    rw [updatePriorities_lookup, hcd]
    rfl
  · intro k hk
    obtain ⟨cd, hcd, hcds⟩ := hinv.readyState k hk
    refine ⟨{ cd with priorityD2 := calcD2 s.centerX s.centerZ cd.x cd.z },
      ?_, hcds⟩
    rw [updatePriorities_lookup, hcd]
    rfl
  · intro k hk
    obtain ⟨cd, hcd, hcds⟩ := hinv.renderedState k hk
    refine ⟨{ cd with priorityD2 := calcD2 s.centerX s.centerZ cd.x cd.z },
      ?_, hcds⟩
    rw [updatePriorities_lookup, hcd]
    rfl

theorem inv_cancelFold (s : CSM) (keys : List (ℤ × ℤ)) (hinv : CSMInv s) :
    CSMInv (cancelFold s keys) := by
  induction keys generalizing s with
  | nil => exact hinv
  | cons a rest ih =>
      unfold cancelFold
      rw [List.foldl_cons]
      exact ih _ (inv_cancelGen s a.1 a.2 hinv)

theorem inv_deleteFold (s : CSM) (keys : List (ℤ × ℤ)) (hinv : CSMInv s) :
    CSMInv (deleteFold s keys) := by
  induction keys generalizing s with
  | nil => exact hinv
  | cons a rest ih =>
      unfold deleteFold
      rw [List.foldl_cons]
      exact ih _ (inv_deleteKey s a hinv)

theorem inv_recentered (s : CSM) (cx cz : ℤ) (hinv : CSMInv s) :
    CSMInv { s with centerX := cx, centerZ := cz } :=
  ⟨hinv.pendingState, hinv.genState, hinv.readyState, hinv.renderedState⟩

theorem inv_cleanupOutOfRange (s : CSM) (hinv : CSMInv s) :
    CSMInv (csmCleanupOutOfRange s) := by
  have heq : csmCleanupOutOfRange s =
      deleteFold
        (cancelFold s ((s.chunks.filter (fun p =>
          distGT (p.2.x - s.centerX) (p.2.z - s.centerZ)
            (s.renderRadius + 1))).map (fun p => p.1)))
        ((s.chunks.filter (fun p =>
          distGT (p.2.x - s.centerX) (p.2.z - s.centerZ)
            (s.renderRadius + 1))).map (fun p => p.1)) := rfl
  rw [heq]
  exact inv_deleteFold _ _ (inv_cancelFold _ _ hinv)

theorem inv_updateCenter (s : CSM) (cx cz : ℤ) (hinv : CSMInv s) :
    CSMInv (csmUpdateCenter s cx cz) := by
  unfold csmUpdateCenter
  exact inv_cleanupOutOfRange _
    (inv_updatePriorities _ (inv_recentered s cx cz hinv))

theorem inv_cleanup (s : CSM) (now : ℚ) (hinv : CSMInv s) :
    CSMInv (csmCleanup s now) := by
  have heq : csmCleanup s now =
      deleteFold s ((s.chunks.filter (fun p =>
        decide (300000 < now - p.2.lastAccessed)
          && decide (p.2.state ≠ .rendered))).map (fun p => p.1)) := rfl
  rw [heq]
  exact inv_deleteFold _ _ hinv

theorem inv_setRenderRadius (s : CSM) (r : ℚ) (hinv : CSMInv s) :
    CSMInv (csmSetRenderRadius s r) := by
  unfold csmSetRenderRadius
  exact inv_cleanupOutOfRange _
    ⟨hinv.pendingState, hinv.genState, hinv.readyState, hinv.renderedState⟩

theorem inv_reachable {s : CSM} (h : CSMReachable s) : CSMInv s := by
  induction h with
  | init => exact inv_init
  | step hr hstep ih =>
      cases hstep with
      | add now x z st => exact inv_addChunk _ now x z st ih
      | set now x z st dd => exact inv_setChunkState _ now x z st dd ih
      | remove x z => exact inv_removeChunk _ x z ih
      | center x z => exact inv_updateCenter _ x z ih
      | cleanup now => exact inv_cleanup _ now ih
      | radius r => exact inv_setRenderRadius _ r ih

/-- C2 (amended): at every reachable state the four collections are pairwise
disjoint and every collection member is a tracked key (union ⊆ tracked); the
converse inclusion of the original claim fails (see the counterexample). -/
theorem c2_collections_disjoint_tracked (s : CSM) (h : CSMReachable s) :
    ∀ k : ℤ × ℤ,
      (k ∈ s.pendingChunks → lookupKV s.generatingChunks k = none ∧
        k ∉ s.readyChunks ∧ k ∉ s.renderedChunks) ∧
      ((∃ g, lookupKV s.generatingChunks k = some g) →
        k ∉ s.readyChunks ∧ k ∉ s.renderedChunks) ∧
      (k ∈ s.readyChunks → k ∉ s.renderedChunks) ∧
      ((k ∈ s.pendingChunks ∨ (∃ g, lookupKV s.generatingChunks k = some g) ∨
        k ∈ s.readyChunks ∨ k ∈ s.renderedChunks) →
        (lookupKV s.chunks k).isSome = true) := by
  have hinv := inv_reachable h
  intro k
  refine ⟨?_, ?_, ?_, ?_⟩
  · intro hp
    obtain ⟨c, hc, hcs⟩ := hinv.pendingState k hp
    refine ⟨?_, ?_, ?_⟩
    · cases hg : lookupKV s.generatingChunks k with
      | none => rfl
      | some g =>
          obtain ⟨c2, hc2, hc2s, _⟩ := hinv.genState k g hg
          rw [hc] at hc2
          cases hc2
          rw [hcs] at hc2s
          cases hc2s
    · intro hr
      obtain ⟨c2, hc2, hc2s⟩ := hinv.readyState k hr
      rw [hc] at hc2
      cases hc2
      rw [hcs] at hc2s
      cases hc2s
    · intro hr
      obtain ⟨c2, hc2, hc2s⟩ := hinv.renderedState k hr
      rw [hc] at hc2
      cases hc2
      rw [hcs] at hc2s
      cases hc2s
  · rintro ⟨g, hg⟩
    obtain ⟨c, hc, hcs, _⟩ := hinv.genState k g hg
    refine ⟨?_, ?_⟩
    · intro hr
      obtain ⟨c2, hc2, hc2s⟩ := hinv.readyState k hr
      rw [hc] at hc2
      cases hc2
      rw [hcs] at hc2s
      cases hc2s
    · intro hr
      obtain ⟨c2, hc2, hc2s⟩ := hinv.renderedState k hr
      rw [hc] at hc2
      cases hc2
      rw [hcs] at hc2s
      cases hc2s
  · intro hr hd
    obtain ⟨c, hc, hcs⟩ := hinv.readyState k hr
    obtain ⟨c2, hc2, hc2s⟩ := hinv.renderedState k hd
    rw [hc] at hc2
    cases hc2
    rw [hcs] at hc2s
    cases hc2s
  · rintro (hp | ⟨g, hg⟩ | hr | hd)
    · obtain ⟨c, hc, _⟩ := hinv.pendingState k hp
      rw [hc]
      rfl
    · obtain ⟨c, hc, _, _⟩ := hinv.genState k g hg
      rw [hc]
      rfl
    · obtain ⟨c, hc, _⟩ := hinv.readyState k hr
      rw [hc]
      rfl
    · obtain ⟨c, hc, _⟩ := hinv.renderedState k hd
      rw [hc]
      rfl

/-- C2 counterexample: `addChunk(0, 0, GENERATING)` (a public call with an
explicit state argument) yields a reachable state whose tracked key (0,0)
belongs to none of the four collections, so the union of the collections is
a strict subset of the tracked key set. -/
theorem c2_counterexample :
    CSMReachable (csmAddChunk csmInit 0 0 0 .generating) ∧
    (lookupKV (csmAddChunk csmInit 0 0 0 .generating).chunks
      (0, 0)).isSome = true ∧
    (0, 0) ∉ (csmAddChunk csmInit 0 0 0 .generating).pendingChunks ∧
    lookupKV (csmAddChunk csmInit 0 0 0 .generating).generatingChunks
      (0, 0) = none ∧
    (0, 0) ∉ (csmAddChunk csmInit 0 0 0 .generating).readyChunks ∧
    (0, 0) ∉ (csmAddChunk csmInit 0 0 0 .generating).renderedChunks := by
  refine ⟨CSMReachable.step CSMReachable.init
    (CSMStep.add csmInit 0 0 0 .generating), ?_, ?_, ?_, ?_, ?_⟩ <;>
    first
      | rfl
      | (intro hmem
         rw [show (csmAddChunk csmInit 0 0 0 .generating).pendingChunks =
           ([] : List (ℤ × ℤ)) from rfl] at hmem
         exact List.not_mem_nil _ hmem)
      | (intro hmem
         rw [show (csmAddChunk csmInit 0 0 0 .generating).readyChunks =
           ([] : List (ℤ × ℤ)) from rfl] at hmem
         exact List.not_mem_nil _ hmem)
      | (intro hmem
         rw [show (csmAddChunk csmInit 0 0 0 .generating).renderedChunks =
           ([] : List (ℤ × ℤ)) from rfl] at hmem
         exact List.not_mem_nil _ hmem)

/-- C2 witness: the disjointness/trackedness facts at the reachable state
with one pending chunk (0,0). -/
theorem c2_witness :
    lookupKV (csmAddChunk csmInit 0 0 0 .pending).generatingChunks
      (0, 0) = none ∧
    (0, 0) ∉ (csmAddChunk csmInit 0 0 0 .pending).readyChunks ∧
    (lookupKV (csmAddChunk csmInit 0 0 0 .pending).chunks
      (0, 0)).isSome = true := by
  have h := c2_collections_disjoint_tracked (csmAddChunk csmInit 0 0 0 .pending)
    (CSMReachable.step CSMReachable.init (CSMStep.add csmInit 0 0 0 .pending))
    (0, 0)
  have hp : (0, 0) ∈ (csmAddChunk csmInit 0 0 0 .pending).pendingChunks := by
    rw [show (csmAddChunk csmInit 0 0 0 .pending).pendingChunks =
      [((0 : ℤ), (0 : ℤ))] from rfl]
    exact List.mem_singleton_self _
  exact ⟨(h.1 hp).1, (h.1 hp).2.1, h.2.2.2 (Or.inl hp)⟩

/-- C7 (amended): at every reachable state, every binding of the
`generatingChunks` collection points at a tracked chunk in state
`GENERATING` whose `generationId` field holds that id; the field itself,
however, is never cleared on leaving `GENERATING` and can persist into
`READY`/`RENDERED` (see the counterexample), so the claimed iff fails. -/
theorem c7_generating_map_sound (s : CSM) (h : CSMReachable s) :
    ∀ (k : ℤ × ℤ) (g : String), lookupKV s.generatingChunks k = some g →
      ∃ c, lookupKV s.chunks k = some c ∧ c.state = ChunkState.generating ∧
        c.generationId = some g :=
  (inv_reachable h).genState

/-- Manager state reaching `READY` after a `GENERATING` phase: the
generation id is never cleared. -/
def c7state : CSM :=
  csmSetChunkState
    (csmSetChunkState (csmAddChunk csmInit 0 0 0 .pending) 1 0 0 .generating
      (some (.str "g1")))
    2 0 0 .ready
    (some (.res
      { id := "g1", chunkX := 0, chunkZ := 0, vertices := [], indices := [],
        colors := [], biomes := [], success := true, error := none }))

/-- C7 counterexample: after the normal `PENDING → GENERATING → READY` flow,
the chunk (0,0) is reachable, in state `READY`, and still carries
`generationId = some "g1"` — the field is set while the state is not
`GENERATING`, refuting the claimed iff. -/
theorem c7_counterexample :
    CSMReachable c7state ∧
    (lookupKV c7state.chunks (0, 0)).map (fun c => (c.state, c.generationId))
      = some (ChunkState.ready, some "g1") := by
  refine ⟨?_, rfl⟩
  exact CSMReachable.step
    (CSMReachable.step
      (CSMReachable.step CSMReachable.init
        (CSMStep.add csmInit 0 0 0 .pending))
      (CSMStep.set _ 1 0 0 .generating (some (.str "g1"))))
    (CSMStep.set _ 2 0 0 .ready
      (some (.res
        { id := "g1", chunkX := 0, chunkZ := 0, vertices := [], indices := [],
          colors := [], biomes := [], success := true, error := none })))

/-- Manager state with (0,0) generating under id "g1" (C7 witness input). -/
def c7genState : CSM :=
  csmSetChunkState (csmAddChunk csmInit 0 0 0 .pending) 1 0 0 .generating
    (some (.str "g1"))

/-- C7 witness: the amended soundness applied to the concrete generating
state. -/
theorem c7_witness :
    ∃ c, lookupKV c7genState.chunks (0, 0) = some c ∧
      c.state = ChunkState.generating ∧ c.generationId = some "g1" := by
  refine c7_generating_map_sound c7genState ?_ (0, 0) "g1" rfl
  exact CSMReachable.step
    (CSMReachable.step CSMReachable.init (CSMStep.add csmInit 0 0 0 .pending))
    (CSMStep.set _ 1 0 0 .generating (some (.str "g1")))
